import Mathlib

/-!
Shallow embedding of the kanban board state engine of `src/app.js`:
the board/column/project tree, the activity logger, the mutation
operations (board/column/project/link/comment CRUD, move and reorder),
the CSV field escaping of `exportToGoogleSheets`, and the JSON
import/export codec.

Modelling conventions, used throughout:
* JS mutates the object returned by `Array.prototype.find` in place;
  a pure update of the first element matching a predicate (`updateFirst`)
  models this exactly, because `find` returns the first match.
* `Array.prototype.splice` deletion/insertion is modelled by
  `removeFirst` (findIndex + splice(i,1)), `spliceOut` (splice(i,1) at a
  known index) and `spliceInsert` (splice(i,0,x), which appends when the
  index is past the end).
* `generateId()` results and `Date.now()` / `new Date()` timestamps are
  non-deterministic inputs; every operation takes them as explicit
  arguments.
* Each store operation returns `StoreState × Bool`; the `Bool` is `true`
  exactly when the JS code reaches a `saveData()` call (a persistence
  write).  DOM rendering and toasts are external collaborators and are
  not part of the state, except for `importFromJSON`, where the
  user-visible rejection notice is part of the modelled result.
-/

/-- Rewrite the first element satisfying `p` by `f` (JS: mutate the object
returned by `Array.prototype.find` in place). -/
def updateFirst {α : Type} (p : α → Bool) (f : α → α) : List α → List α
  | [] => []
  | x :: xs => if p x then f x :: xs else x :: updateFirst p f xs

/-- Remove the first element satisfying `p`
(JS: `findIndex` followed by `splice(index, 1)`). -/
def removeFirst {α : Type} (p : α → Bool) : List α → List α
  | [] => []
  | x :: xs => if p x then xs else x :: removeFirst p xs

/-- JS `arr.splice(i, 0, a)`: insert `a` at position `i`, appending when
`i` is at or past the end. -/
def spliceInsert {α : Type} (l : List α) (i : Nat) (a : α) : List α :=
  l.take i ++ a :: l.drop i

/-- JS `arr.splice(i, 1)`: drop the element at position `i`. -/
def spliceOut {α : Type} (l : List α) (i : Nat) : List α :=
  l.take i ++ l.drop (i + 1)

/-- JS `Array.prototype.join(sep)`. -/
def joinSep (sep : String) : List String → String
  | [] => ""
  | [x] => x
  | x :: xs => x ++ sep ++ joinSep sep xs

/-- An activity's `oldValue`/`newValue` payload: a plain string, or a
small JS object literal (a list of key/value string fields, e.g.
`{title, url}`).  `null`/absent payloads are `Option.none` around this. -/
inductive ActVal where
  | str (s : String)
  | obj (fields : List (String × String))
  deriving DecidableEq, Repr

/-- One record of a project's activity log (`logActivity` in app.js). -/
structure Activity where
  id : String
  action : String
  description : String
  timestamp : Nat
  oldValue : Option ActVal
  newValue : Option ActVal
  deriving DecidableEq, Repr

/-- A project link `{id, url, title, timestamp}`. -/
structure Link where
  id : String
  url : String
  title : String
  timestamp : Nat
  deriving DecidableEq, Repr

/-- A project comment `{id, text, timestamp}`. -/
structure Comment where
  id : String
  text : String
  timestamp : Nat
  deriving DecidableEq, Repr

/-- A project card.  `projectId` is the human-readable display id
("PREFIX-NNN"), distinct from the internal `id`. -/
structure Project where
  id : String
  projectId : String
  projectName : String
  description : String
  links : List Link
  comments : List Comment
  activityLog : List Activity
  deriving DecidableEq, Repr

/-- A column `{id, title, order, projects}`. -/
structure Column where
  id : String
  title : String
  order : Nat
  projects : List Project
  deriving DecidableEq, Repr

/-- A board.  The source field name is `projectIdPrefix`; it is shortened
to `projectIdPfx` here for lexical reasons only. -/
structure Board where
  id : String
  name : String
  projectIdPfx : String
  description : String
  columns : List Column
  deriving DecidableEq, Repr

/-- The global mutable `state` object of app.js. -/
structure StoreState where
  boards : List Board
  currentBoardId : Option String
  deriving DecidableEq, Repr

/-- JS `state.boards.find(b => b.id === boardId)`. -/
def findBoard (s : StoreState) (bid : String) : Option Board :=
  s.boards.find? (fun b => b.id == bid)

/-- JS `board.columns.find(c => c.id === columnId)`. -/
def findColumnIn (b : Board) (cid : String) : Option Column :=
  b.columns.find? (fun c => c.id == cid)

/-- JS `column.projects.find(p => p.id === projectId)`. -/
def findProjectIn (c : Column) (pid : String) : Option Project :=
  c.projects.find? (fun p => p.id == pid)

/-- The board → column resolution chain used by every column-level
operation. -/
def findColumn (s : StoreState) (bid cid : String) : Option Column :=
  (findBoard s bid).bind (fun b => findColumnIn b cid)

/-- The board → column → project resolution chain used by every
project-level operation. -/
def findProject (s : StoreState) (bid cid pid : String) : Option Project :=
  (findColumn s bid cid).bind (fun c => findProjectIn c pid)

/-- Apply `f` to the first board whose id is `bid` (in-place mutation of
the board returned by `find`). -/
def updateBoardIn (bid : String) (f : Board → Board) (s : StoreState) : StoreState :=
  { s with boards := updateFirst (fun b => b.id == bid) f s.boards }

/-- Apply `f` to the first `cid` column of the first `bid` board. -/
def updateColumnIn (bid cid : String) (f : Column → Column) (s : StoreState) : StoreState :=
  updateBoardIn bid (fun b => { b with columns := updateFirst (fun c => c.id == cid) f b.columns }) s

/-- Apply `f` to the first `pid` project of the first `cid` column of the
first `bid` board. -/
def updateProjectIn (bid cid pid : String) (f : Project → Project) (s : StoreState) : StoreState :=
  updateColumnIn bid cid (fun c => { c with projects := updateFirst (fun p => p.id == pid) f c.projects }) s

/-- Source `logActivity(boardId, columnId, projectId, action, description, oldValue, newValue)`:
resolve the id chain (silent no-op on any miss) and unshift a fresh
activity onto the project's log.  The JS guard that initialises a missing
`activityLog` to `[]` is subsumed by the log always being a list here. -/
def logActivity (bid cid pid action descr : String) (oldValue newValue : Option ActVal)
    (aid : String) (now : Nat) (s : StoreState) : StoreState :=
  match findProject s bid cid pid with
  | none => s
  | some _ =>
    let activity : Activity :=
      { id := aid, action := action, description := descr, timestamp := now,
        oldValue := oldValue, newValue := newValue }
    updateProjectIn bid cid pid (fun p => { p with activityLog := activity :: p.activityLog }) s

/-- The partial-fields argument of `updateBoard` as built by its caller
(`saveBoardSettings`): name, uppercased prefix, description.  A `none`
field is absent from the JS updates object. -/
structure BoardUpdates where
  name : Option String
  projectIdPfx : Option String
  description : Option String
  deriving DecidableEq, Repr

/-- JS `Object.assign(board, updates)`. -/
def applyBoardUpdates (u : BoardUpdates) (b : Board) : Board :=
  { b with
    name := u.name.getD b.name,
    projectIdPfx := u.projectIdPfx.getD b.projectIdPfx,
    description := u.description.getD b.description }

/-- The partial-fields argument of `updateColumn` as built by its caller
(the column-title blur handler): only `title`. -/
structure ColumnUpdates where
  title : Option String
  deriving DecidableEq, Repr

/-- JS `Object.assign(column, updates)`. -/
def applyColumnUpdates (u : ColumnUpdates) (c : Column) : Column :=
  { c with title := u.title.getD c.title }

/-- The partial-fields argument of `updateProject` (see `closeProjectModal`):
`projectId`, `projectName`, `description`. -/
structure ProjectUpdates where
  projectName : Option String
  projectId : Option String
  description : Option String
  deriving DecidableEq, Repr

/-- JS `Object.assign(project, updates)`. -/
def applyProjectUpdates (u : ProjectUpdates) (p : Project) : Project :=
  { p with
    projectName := u.projectName.getD p.projectName,
    projectId := u.projectId.getD p.projectId,
    description := u.description.getD p.description }

/-- The three seed columns of `createBoard` (To Do / In Progress / Done,
order 0/1/2, empty project lists). -/
def defaultColumns (c1 c2 c3 : String) : List Column :=
  [ { id := c1, title := "To Do", order := 0, projects := [] },
    { id := c2, title := "In Progress", order := 1, projects := [] },
    { id := c3, title := "Done", order := 2, projects := [] } ]

/-- Source `createBoard(name, projectIdPrefix, description)`: push a new board
with uppercased prefix and the three default columns, make it current,
save. -/
def createBoard (name pfx descr bidNew c1 c2 c3 : String) (s : StoreState) : StoreState × Bool :=
  let b : Board :=
    { id := bidNew, name := name, projectIdPfx := pfx.toUpper, description := descr,
      columns := defaultColumns c1 c2 c3 }
  ({ boards := s.boards ++ [b], currentBoardId := some bidNew }, true)

/-- Source `updateBoard(boardId, updates)`: shallow-merge and save if the board
resolves, otherwise a silent no-op. -/
def updateBoard (bid : String) (u : BoardUpdates) (s : StoreState) : StoreState × Bool :=
  match findBoard s bid with
  | none => (s, false)
  | some _ => (updateBoardIn bid (applyBoardUpdates u) s, true)

/-- Source `deleteBoard(boardId)`: splice the board out; if it was current, fall
back to the first remaining board (or none). -/
def deleteBoard (bid : String) (s : StoreState) : StoreState × Bool :=
  match findBoard s bid with
  | none => (s, false)
  | some _ =>
    let boards1 := removeFirst (fun b => b.id == bid) s.boards
    let cur :=
      if s.currentBoardId == some bid then
        match boards1 with
        | [] => none
        | b :: _ => some b.id
      else s.currentBoardId
    ({ boards := boards1, currentBoardId := cur }, true)

/-- Source `createColumn(boardId, title)`: append a column with
`order = board.columns.length`. -/
def createColumn (bid title colIdNew : String) (s : StoreState) : StoreState × Bool :=
  match findBoard s bid with
  | none => (s, false)
  | some b =>
    let newCol : Column := { id := colIdNew, title := title, order := b.columns.length, projects := [] }
    (updateBoardIn bid (fun b2 => { b2 with columns := b2.columns ++ [newCol] }) s, true)

/-- Source `updateColumn(boardId, columnId, updates)`. -/
def updateColumn (bid cid : String) (u : ColumnUpdates) (s : StoreState) : StoreState × Bool :=
  match findColumn s bid cid with
  | none => (s, false)
  | some _ => (updateColumnIn bid cid (applyColumnUpdates u) s, true)

/-- JS `board.columns.forEach((col, idx) => col.order = idx)`, started at
index `k`. -/
def reindexFrom (k : Nat) : List Column → List Column
  | [] => []
  | c :: cs => { c with order := k } :: reindexFrom (k + 1) cs

/-- Recompute every column's `order` as its index. -/
def reindexColumns (cols : List Column) : List Column :=
  reindexFrom 0 cols

/-- Source `deleteColumn(boardId, columnId)`: splice the column out and reindex
the remaining orders. -/
def deleteColumn (bid cid : String) (s : StoreState) : StoreState × Bool :=
  match findColumn s bid cid with
  | none => (s, false)
  | some _ =>
    (updateBoardIn bid
      (fun b => { b with columns := reindexColumns (removeFirst (fun c => c.id == cid) b.columns) }) s,
     true)

/-- Source `reorderColumns(boardId, fromIndex, toIndex)`: splice the column out
of `fromIndex`, splice it back in at `toIndex`, reindex all orders.
With `fromIndex` out of range the JS `splice(fromIndex, 1)` yields
`undefined` and the subsequent `forEach` throws a `TypeError`
mid-mutation; that divergent case is modelled as leaving the state
unchanged and is excluded from the theorems by an index-validity
hypothesis. -/
def reorderColumns (bid : String) (fromIndex toIndex : Nat) (s : StoreState) : StoreState × Bool :=
  match findBoard s bid with
  | none => (s, false)
  | some b =>
    match b.columns[fromIndex]? with
    | none => (s, false)
    | some c =>
      (updateBoardIn bid
        (fun b2 =>
          let cols := reindexColumns (spliceInsert (spliceOut b2.columns fromIndex) toIndex c)
          { b2 with columns := cols }) s,
       true)

/-- The longest run of decimal digits at the end of a string: what group 1
of the trailing-digits regex of `getNextProjectNumber` captures (the
pattern is: an optional hyphen, then one or more digits, anchored at the
end of the string; group 1 holds the digits). -/
def trailingDigits (s : String) : List Char :=
  (s.data.reverse.takeWhile (fun c => c.isDigit)).reverse

/-- Decimal value of a digit list (JS `parseInt` on the captured group). -/
def digitsVal (l : List Char) : Nat :=
  l.foldl (fun a c => a * 10 + (c.toNat - 48)) 0

/-- The numeric suffix of a `projectId`, when the regex matches. -/
def trailingNum (s : String) : Option Nat :=
  match trailingDigits s with
  | [] => none
  | l => some (digitsVal l)

/-- The inner accumulator step of `getNextProjectNumber`:
`if (num > maxNumber) maxNumber = num` (skipping non-matching ids). -/
def projFoldMax (m : Nat) (p : Project) : Nat :=
  match trailingNum p.projectId with
  | some num => if num > m then num else m
  | none => m

/-- Fold `projFoldMax` over one column's projects. -/
def colFoldMax (m : Nat) (c : Column) : Nat :=
  c.projects.foldl projFoldMax m

/-- Source `getNextProjectNumber(boardId)`: 1 + the maximum trailing-digit
suffix over all projects of all columns of the board (1 when the board
does not resolve). -/
def getNextProjectNumber (s : StoreState) (bid : String) : Nat :=
  match findBoard s bid with
  | none => 1
  | some b => b.columns.foldl colFoldMax 0 + 1

/-- JS `String(n).padStart(3, '0')`. -/
def padTo3 (n : Nat) : String :=
  let str := toString n
  String.mk (List.replicate (3 - str.length) '0') ++ str

/-- The fresh project object `createProject` builds: display id
`<prefix>-<padded number>`, name "New Project", everything else empty. -/
def newProjectRecord (b : Board) (pidNew : String) (num : Nat) : Project :=
  { id := pidNew, projectId := b.projectIdPfx ++ "-" ++ padTo3 num,
    projectName := "New Project", description := "",
    links := [], comments := [], activityLog := [] }

/-- Source `createProject(boardId, columnId)`: push a fresh project with display
id `<prefix>-<padded next number>` and name "New Project", then log a
`created` activity for it. -/
def createProject (bid cid pidNew aid : String) (now : Nat) (s : StoreState) : StoreState × Bool :=
  match findBoard s bid with
  | none => (s, false)
  | some b =>
    match findColumnIn b cid with
    | none => (s, false)
    | some _ =>
      let proj : Project := newProjectRecord b pidNew (getNextProjectNumber s bid)
      let s1 := updateColumnIn bid cid (fun c => { c with projects := c.projects ++ [proj] }) s
      let s2 := logActivity bid cid pidNew "created" "Project created" none none aid now s1
      (s2, true)

/-- Source `updateProject(boardId, columnId, projectId, updates)`: per changed
tracked field, log an activity with the old and new values, then
`Object.assign` the updates.  Note the JS truthiness guards: `projectName`
and `projectId` log (and are compared) only when the incoming value is a
non-empty string; `description` only needs to be `!== undefined`. -/
def updateProject (bid cid pid : String) (u : ProjectUpdates) (a1 a2 a3 : String) (now : Nat)
    (s : StoreState) : StoreState × Bool :=
  match findProject s bid cid pid with
  | none => (s, false)
  | some proj =>
    let s1 :=
      match u.projectName with
      | some n =>
        if n != "" && n != proj.projectName then
          logActivity bid cid pid "name_changed" "Project name changed"
            (some (ActVal.str proj.projectName)) (some (ActVal.str n)) a1 now s
        else s
      | none => s
    let s2 :=
      match u.projectId with
      | some i =>
        if i != "" && i != proj.projectId then
          logActivity bid cid pid "id_changed" "Project ID changed"
            (some (ActVal.str proj.projectId)) (some (ActVal.str i)) a2 now s1
        else s1
      | none => s1
    let s3 :=
      match u.description with
      | some d =>
        if d != proj.description then
          logActivity bid cid pid "description_updated" "Description updated"
            (some (ActVal.str proj.description)) (some (ActVal.str d)) a3 now s2
        else s2
      | none => s2
    (updateProjectIn bid cid pid (applyProjectUpdates u) s3, true)

/-- Source `deleteProject(boardId, columnId, projectId)`. -/
def deleteProject (bid cid pid : String) (s : StoreState) : StoreState × Bool :=
  match findProject s bid cid pid with
  | none => (s, false)
  | some _ =>
    (updateColumnIn bid cid (fun c => { c with projects := removeFirst (fun p => p.id == pid) c.projects }) s,
     true)

/-- The `moved` activity description
`` `Moved from '${fromColumn.title}' to '${toColumn.title}'` ``. -/
def movedDesc (fromTitle toTitle : String) : String :=
  "Moved from \x27" ++ fromTitle ++ "\x27 to \x27" ++ toTitle ++ "\x27"

/-- Source `moveProject(boardId, fromColumnId, toColumnId, projectId, toIndex)`:
splice the project out of the source column and into the destination at
`toIndex`; cross-column moves additionally log a `moved` activity whose
description embeds both column titles, same-column reorders log nothing. -/
def moveProject (bid fromCid toCid pid : String) (toIndex : Nat) (aid : String) (now : Nat)
    (s : StoreState) : StoreState × Bool :=
  match findBoard s bid with
  | none => (s, false)
  | some b =>
    match findColumnIn b fromCid, findColumnIn b toCid with
    | some fc, some tc =>
      if fromCid != toCid then
        match findProjectIn fc pid with
        | none => (s, false)
        | some p =>
          let s1 := updateBoardIn bid
            (fun b2 =>
              let cols :=
                updateFirst (fun c => c.id == toCid)
                  (fun c => { c with projects := spliceInsert c.projects toIndex p })
                  (updateFirst (fun c => c.id == fromCid)
                    (fun c => { c with projects := removeFirst (fun q => q.id == pid) c.projects })
                    b2.columns)
              { b2 with columns := cols }) s
          let s2 := logActivity bid toCid pid "moved" (movedDesc fc.title tc.title) none none aid now s1
          (s2, true)
      else
        match findProjectIn fc pid with
        | none => (s, false)
        | some p =>
          (updateColumnIn bid fromCid
            (fun c =>
              let ps := spliceInsert (removeFirst (fun q => q.id == pid) c.projects) toIndex p
              { c with projects := ps }) s,
           true)
    | _, _ => (s, false)

/-- Source `addLink(boardId, columnId, projectId, url, title)`. -/
def addLink (bid cid pid url title lid aid : String) (now : Nat) (s : StoreState) : StoreState × Bool :=
  match findProject s bid cid pid with
  | none => (s, false)
  | some _ =>
    let s1 := updateProjectIn bid cid pid
      (fun p => { p with links := p.links ++ [{ id := lid, url := url, title := title, timestamp := now }] }) s
    let s2 := logActivity bid cid pid "link_added" "🔗 Link added"
      none (some (ActVal.obj [("title", title), ("url", url)])) aid now s1
    (s2, true)

/-- Source `updateLink(boardId, columnId, projectId, linkId, url, title)`:
overwrite url/title, refresh the timestamp, then log one activity whose
action depends on which of the two fields actually changed — or none at
all when neither did. -/
def updateLink (bid cid pid lid url title aid : String) (now : Nat) (s : StoreState) : StoreState × Bool :=
  match findProject s bid cid pid with
  | none => (s, false)
  | some proj =>
    match proj.links.find? (fun l => l.id == lid) with
    | none => (s, false)
    | some link =>
      let s1 := updateProjectIn bid cid pid
        (fun p =>
          let ls := updateFirst (fun l => l.id == lid)
            (fun l => { l with url := url, title := title, timestamp := now }) p.links
          { p with links := ls }) s
      let titleChanged := link.title != title
      let urlChanged := link.url != url
      let s2 :=
        if titleChanged && urlChanged then
          logActivity bid cid pid "link_updated" "✏️ Link updated"
            (some (ActVal.obj [("title", link.title), ("url", link.url)]))
            (some (ActVal.obj [("title", title), ("url", url)])) aid now s1
        else if titleChanged then
          logActivity bid cid pid "link_title_updated" "✏️ Link title updated"
            (some (ActVal.obj [("oldTitle", link.title), ("url", url)]))
            (some (ActVal.obj [("newTitle", title), ("url", url)])) aid now s1
        else if urlChanged then
          logActivity bid cid pid "link_url_updated" "✏️ Link URL updated"
            (some (ActVal.obj [("title", title), ("oldUrl", link.url)]))
            (some (ActVal.obj [("title", title), ("newUrl", url)])) aid now s1
        else s1
      (s2, true)

/-- Source `deleteLink(boardId, columnId, projectId, linkId)`: log the deleted
link's `{title, url}` as `oldValue`, then splice it out. -/
def deleteLink (bid cid pid lid aid : String) (now : Nat) (s : StoreState) : StoreState × Bool :=
  match findProject s bid cid pid with
  | none => (s, false)
  | some proj =>
    match proj.links.find? (fun l => l.id == lid) with
    | none => (s, false)
    | some link =>
      let s1 := logActivity bid cid pid "link_deleted" "🗑️ Link deleted"
        (some (ActVal.obj [("title", link.title), ("url", link.url)])) none aid now s
      let s2 := updateProjectIn bid cid pid
        (fun p => { p with links := removeFirst (fun l => l.id == lid) p.links }) s1
      (s2, true)

/-- Source `addComment(boardId, columnId, projectId, text)`. -/
def addComment (bid cid pid text cmid aid : String) (now : Nat) (s : StoreState) : StoreState × Bool :=
  match findProject s bid cid pid with
  | none => (s, false)
  | some _ =>
    let s1 := updateProjectIn bid cid pid
      (fun p => { p with comments := p.comments ++ [{ id := cmid, text := text, timestamp := now }] }) s
    let s2 := logActivity bid cid pid "comment_added" "💬 Comment added"
      none (some (ActVal.str text)) aid now s1
    (s2, true)

/-- Source `updateComment(boardId, columnId, projectId, commentId, text)`:
overwrite the text, refresh the timestamp, log one `comment_updated`
activity (unconditionally, even for an unchanged text). -/
def updateComment (bid cid pid cmid text aid : String) (now : Nat) (s : StoreState) : StoreState × Bool :=
  match findProject s bid cid pid with
  | none => (s, false)
  | some proj =>
    match proj.comments.find? (fun c => c.id == cmid) with
    | none => (s, false)
    | some comment =>
      let s1 := updateProjectIn bid cid pid
        (fun p =>
          let cs := updateFirst (fun c => c.id == cmid)
            (fun c => { c with text := text, timestamp := now }) p.comments
          { p with comments := cs }) s
      let s2 := logActivity bid cid pid "comment_updated" "✏️ Comment edited"
        (some (ActVal.str comment.text)) (some (ActVal.str text)) aid now s1
      (s2, true)

/-- Source `deleteComment(boardId, columnId, projectId, commentId)`: log the
deleted comment's text as `oldValue`, then splice it out. -/
def deleteComment (bid cid pid cmid aid : String) (now : Nat) (s : StoreState) : StoreState × Bool :=
  match findProject s bid cid pid with
  | none => (s, false)
  | some proj =>
    match proj.comments.find? (fun c => c.id == cmid) with
    | none => (s, false)
    | some comment =>
      let s1 := logActivity bid cid pid "comment_deleted" "🗑️ Comment deleted"
        (some (ActVal.str comment.text)) none aid now s
      let s2 := updateProjectIn bid cid pid
        (fun p => { p with comments := removeFirst (fun c => c.id == cmid) p.comments }) s1
      (s2, true)

/-- Double every double-quote character (JS `str.replace` of every quote
with two quotes, inside the CSV `escape` helper). -/
def doubleQuotesCh : List Char → List Char
  | [] => []
  | c :: cs => if c = '"' then '"' :: '"' :: doubleQuotesCh cs else c :: doubleQuotesCh cs

/-- JS `str.includes(c)` for a single character. -/
def containsChar (s : String) (c : Char) : Bool :=
  s.data.contains c

/-- The CSV `escape` closure of `exportToGoogleSheets`: falsy (empty)
values become empty; otherwise double internal quotes, then wrap in
quotes whenever the (replaced) value contains a comma, newline or quote. -/
def csvEscape (s : String) : String :=
  if s == "" then ""
  else
    let r := String.mk (doubleQuotesCh s.data)
    if containsChar r ',' || containsChar r '\n' || containsChar r '"' then "\"" ++ r ++ "\"" else r

/-- The `Links` cell: each link rendered `title: url`, joined by bars. -/
def linksCell (p : Project) : String :=
  joinSep " | " (p.links.map (fun l => l.title ++ ": " ++ l.url))

/-- The `Comments` cell: comment texts joined by bars. -/
def commentsCell (p : Project) : String :=
  joinSep " | " (p.comments.map (fun c => c.text))

/-- The `Created Date` cell: the formatted timestamp of the project's
`created` activity, or "Unknown".  The timestamp formatter
(`formatTimestamp`, local-timezone dependent) is passed in as `fmt`. -/
def createdCell (fmt : Nat → String) (p : Project) : String :=
  match p.activityLog.find? (fun a => a.action == "created") with
  | some a => fmt a.timestamp
  | none => "Unknown"

/-- One CSV data row of `exportToGoogleSheets`: every cell goes through
`csvEscape`, cells joined by commas. -/
def csvRow (fmt : Nat → String) (b : Board) (c : Column) (p : Project) : String :=
  joinSep ","
    [ csvEscape b.name, csvEscape c.title, csvEscape p.projectId, csvEscape p.projectName,
      csvEscape p.description, csvEscape (linksCell p), csvEscape (commentsCell p),
      csvEscape (createdCell fmt p) ]

/-- The parsed JSON snapshot as seen by `importFromJSON`.  `boards` is
`none` when the top-level value lacks a `boards` field that is an array
(the validation failure); the remaining fields are the ones the importer
reads.  Metadata such as `exportedAt` is carried but never read back. -/
structure Snapshot where
  boards : Option (List Board)
  currentBoardId : Option String
  exportedAt : Option Nat
  projectCount : Option Nat
  deriving DecidableEq, Repr

/-- Total number of projects over all boards and columns. -/
def totalProjects (boards : List Board) : Nat :=
  boards.foldl (fun sum b => b.columns.foldl (fun acc c => acc + c.projects.length) sum) 0

/-- Source `exportToJSON`: `none` when there are no boards (no file is produced,
only a notice); otherwise the downloaded snapshot document. -/
def exportSnapshot (s : StoreState) (now : Nat) : Option Snapshot :=
  if s.boards.isEmpty then none
  else
    some { boards := some s.boards, currentBoardId := s.currentBoardId,
           exportedAt := some now, projectCount := some (totalProjects s.boards) }

/-- Result of `importFromJSON` on an already-parsed snapshot: the store,
whether `saveData()` ran, and the rejection/success notice (if any). -/
structure ImportResult where
  state : StoreState
  saved : Bool
  toast : Option String
  deriving DecidableEq, Repr

/-- Source `importFromJSON` after the file has been read and parsed.
`confirmReplace` is the user's answer to the overwrite confirmation
(asked only when the store already has boards).  On success the boards
and currentBoardId are wholesale-replaced and saved; afterwards a
non-resolving currentBoardId falls back to the first board. -/
def importFromJSON (d : Snapshot) (confirmReplace : Bool) (s : StoreState) : ImportResult :=
  match d.boards with
  | none => { state := s, saved := false, toast := some "❌ Invalid backup file format" }
  | some bs =>
    if !s.boards.isEmpty && !confirmReplace then
      { state := s, saved := false, toast := none }
    else
      let s1 : StoreState := { boards := bs, currentBoardId := d.currentBoardId }
      let s2 :=
        match bs with
        | [] => s1
        | b0 :: _ =>
          let b : Board :=
            match s1.currentBoardId with
            | some cbid => (bs.find? (fun b => b.id == cbid)).getD b0
            | none => b0
          { s1 with currentBoardId := some b.id }
      { state := s2, saved := true, toast := some "✅ Imported" }

/-- One invocation of a store mutation, with the non-deterministic fresh
ids and timestamps it consumes as explicit fields. -/
inductive Op where
  | createBoard (name pfx descr bidNew c1 c2 c3 : String)
  | updateBoard (bid : String) (u : BoardUpdates)
  | deleteBoard (bid : String)
  | createColumn (bid title colIdNew : String)
  | updateColumn (bid cid : String) (u : ColumnUpdates)
  | deleteColumn (bid cid : String)
  | reorderColumns (bid : String) (fromIndex toIndex : Nat)
  | createProject (bid cid pidNew aid : String) (now : Nat)
  | updateProject (bid cid pid : String) (u : ProjectUpdates) (a1 a2 a3 : String) (now : Nat)
  | deleteProject (bid cid pid : String)
  | moveProject (bid fromCid toCid pid : String) (toIndex : Nat) (aid : String) (now : Nat)
  | addLink (bid cid pid url title lid aid : String) (now : Nat)
  | updateLink (bid cid pid lid url title aid : String) (now : Nat)
  | deleteLink (bid cid pid lid aid : String) (now : Nat)
  | addComment (bid cid pid text cmid aid : String) (now : Nat)
  | updateComment (bid cid pid cmid text aid : String) (now : Nat)
  | deleteComment (bid cid pid cmid aid : String) (now : Nat)
  | logActivity (bid cid pid action descr : String) (oldValue newValue : Option ActVal) (aid : String) (now : Nat)
  deriving DecidableEq, Repr

/-- Run one store operation; the `Bool` reports whether `saveData()` ran
(`logActivity` is a helper and never saves on its own). -/
def applyOp : Op → StoreState → StoreState × Bool
  | .createBoard name pfx descr bidNew c1 c2 c3, s => createBoard name pfx descr bidNew c1 c2 c3 s
  | .updateBoard bid u, s => updateBoard bid u s
  | .deleteBoard bid, s => deleteBoard bid s
  | .createColumn bid title colIdNew, s => createColumn bid title colIdNew s
  | .updateColumn bid cid u, s => updateColumn bid cid u s
  | .deleteColumn bid cid, s => deleteColumn bid cid s
  | .reorderColumns bid fromIndex toIndex, s => reorderColumns bid fromIndex toIndex s
  | .createProject bid cid pidNew aid now, s => createProject bid cid pidNew aid now s
  | .updateProject bid cid pid u a1 a2 a3 now, s => updateProject bid cid pid u a1 a2 a3 now s
  | .deleteProject bid cid pid, s => deleteProject bid cid pid s
  | .moveProject bid fromCid toCid pid toIndex aid now, s => moveProject bid fromCid toCid pid toIndex aid now s
  | .addLink bid cid pid url title lid aid now, s => addLink bid cid pid url title lid aid now s
  | .updateLink bid cid pid lid url title aid now, s => updateLink bid cid pid lid url title aid now s
  | .deleteLink bid cid pid lid aid now, s => deleteLink bid cid pid lid aid now s
  | .addComment bid cid pid text cmid aid now, s => addComment bid cid pid text cmid aid now s
  | .updateComment bid cid pid cmid text aid now, s => updateComment bid cid pid cmid text aid now s
  | .deleteComment bid cid pid cmid aid now, s => deleteComment bid cid pid cmid aid now s
  | .logActivity bid cid pid action descr oldValue newValue aid now, s =>
      (logActivity bid cid pid action descr oldValue newValue aid now s, false)

/-- Whether the operation's whole board/column/project/link/comment id
chain resolves in `s` (`createBoard` consumes no ids and counts as
resolving). -/
def chainResolves : Op → StoreState → Bool
  | .createBoard .., _ => true
  | .updateBoard bid _, s => (findBoard s bid).isSome
  | .deleteBoard bid, s => (findBoard s bid).isSome
  | .createColumn bid _ _, s => (findBoard s bid).isSome
  | .updateColumn bid cid _, s => (findColumn s bid cid).isSome
  | .deleteColumn bid cid, s => (findColumn s bid cid).isSome
  | .reorderColumns bid _ _, s => (findBoard s bid).isSome
  | .createProject bid cid _ _ _, s => (findColumn s bid cid).isSome
  | .updateProject bid cid pid _ _ _ _ _, s => (findProject s bid cid pid).isSome
  | .deleteProject bid cid pid, s => (findProject s bid cid pid).isSome
  | .moveProject bid fromCid toCid pid _ _ _, s =>
      match findColumn s bid fromCid, findColumn s bid toCid with
      | some fc, some _ => (findProjectIn fc pid).isSome
      | _, _ => false
  | .addLink bid cid pid _ _ _ _ _, s => (findProject s bid cid pid).isSome
  | .updateLink bid cid pid lid _ _ _ _, s =>
      match findProject s bid cid pid with
      | some proj => (proj.links.find? (fun l => l.id == lid)).isSome
      | none => false
  | .deleteLink bid cid pid lid _ _, s =>
      match findProject s bid cid pid with
      | some proj => (proj.links.find? (fun l => l.id == lid)).isSome
      | none => false
  | .addComment bid cid pid _ _ _ _, s => (findProject s bid cid pid).isSome
  | .updateComment bid cid pid cmid _ _ _, s =>
      match findProject s bid cid pid with
      | some proj => (proj.comments.find? (fun c => c.id == cmid)).isSome
      | none => false
  | .deleteComment bid cid pid cmid _ _, s =>
      match findProject s bid cid pid with
      | some proj => (proj.comments.find? (fun c => c.id == cmid)).isSome
      | none => false
  | .logActivity bid cid pid _ _ _ _ _ _, s => (findProject s bid cid pid).isSome

/-- The boardId an operation is invoked with (none for `createBoard`). -/
def opBoardId : Op → Option String
  | .createBoard .. => none
  | .updateBoard bid _ => some bid
  | .deleteBoard bid => some bid
  | .createColumn bid _ _ => some bid
  | .updateColumn bid _ _ => some bid
  | .deleteColumn bid _ => some bid
  | .reorderColumns bid _ _ => some bid
  | .createProject bid _ _ _ _ => some bid
  | .updateProject bid _ _ _ _ _ _ _ => some bid
  | .deleteProject bid _ _ => some bid
  | .moveProject bid _ _ _ _ _ _ => some bid
  | .addLink bid _ _ _ _ _ _ _ => some bid
  | .updateLink bid _ _ _ _ _ _ _ => some bid
  | .deleteLink bid _ _ _ _ _ => some bid
  | .addComment bid _ _ _ _ _ _ => some bid
  | .updateComment bid _ _ _ _ _ _ => some bid
  | .deleteComment bid _ _ _ _ _ => some bid
  | .logActivity bid _ _ _ _ _ _ _ _ => some bid

/-- The single project id an operation addresses (the created project's
fresh id for `createProject`; none for board/column-level operations). -/
def opProjectId : Op → Option String
  | .createProject _ _ pidNew _ _ => some pidNew
  | .updateProject _ _ pid _ _ _ _ _ => some pid
  | .deleteProject _ _ pid => some pid
  | .moveProject _ _ _ pid _ _ _ => some pid
  | .addLink _ _ pid _ _ _ _ _ => some pid
  | .updateLink _ _ pid _ _ _ _ _ => some pid
  | .deleteLink _ _ pid _ _ _ => some pid
  | .addComment _ _ pid _ _ _ _ => some pid
  | .updateComment _ _ pid _ _ _ _ => some pid
  | .deleteComment _ _ pid _ _ _ => some pid
  | .logActivity _ _ pid _ _ _ _ _ _ => some pid
  | _ => none

/-- Index validity for `reorderColumns` (out-of-range `fromIndex` makes
the JS throw mid-mutation; see `reorderColumns`).  Every other operation
is unconstrained. -/
def opIndexOK : Op → StoreState → Bool
  | .reorderColumns bid fromIndex _, s =>
      match findBoard s bid with
      | some b => decide (fromIndex < b.columns.length)
      | none => true
  | _, _ => true

/-- Source `ordersFrom k cols`: the columns carry orders `k, k+1, ...`. -/
def ordersFrom : Nat → List Column → Bool
  | _, [] => true
  | k, c :: cs => (c.order == k) && ordersFrom (k + 1) cs

/-- The §3 invariant: in every board, each column's `order` equals its
index in the column sequence. -/
def orderOK (s : StoreState) : Bool :=
  s.boards.all (fun b => ordersFrom 0 b.columns)

/-- All boards other than `bid`, in order (the frame of a board-targeted
operation). -/
def boardsExcept (s : StoreState) (bid : String) : List Board :=
  s.boards.filter (fun b => !(b.id == bid))

/-- Within board `bid`: per column (keyed by column id), the projects
other than `pid` — the frame of a project-targeted operation. -/
def otherProjsView (s : StoreState) (bid pid : String) : Option (List (String × List Project)) :=
  (findBoard s bid).map
    (fun b => b.columns.map (fun c => (c.id, c.projects.filter (fun p => !(p.id == pid)))))

/-- The `name_changed` activity `updateProject` produces when the
incoming `projectName` is a present, non-empty, different string. -/
def nameChangeActs (proj : Project) (u : ProjectUpdates) (a1 : String) (now : Nat) : List Activity :=
  match u.projectName with
  | some n =>
    if n != "" && n != proj.projectName then
      [{ id := a1, action := "name_changed", description := "Project name changed", timestamp := now,
         oldValue := some (ActVal.str proj.projectName), newValue := some (ActVal.str n) }]
    else []
  | none => []

/-- The `id_changed` activity `updateProject` produces when the incoming
`projectId` is a present, non-empty, different string. -/
def idChangeActs (proj : Project) (u : ProjectUpdates) (a2 : String) (now : Nat) : List Activity :=
  match u.projectId with
  | some i =>
    if i != "" && i != proj.projectId then
      [{ id := a2, action := "id_changed", description := "Project ID changed", timestamp := now,
         oldValue := some (ActVal.str proj.projectId), newValue := some (ActVal.str i) }]
    else []
  | none => []

/-- The `description_updated` activity `updateProject` produces when the
incoming `description` is present and different (empty allowed). -/
def descChangeActs (proj : Project) (u : ProjectUpdates) (a3 : String) (now : Nat) : List Activity :=
  match u.description with
  | some d =>
    if d != proj.description then
      [{ id := a3, action := "description_updated", description := "Description updated", timestamp := now,
         oldValue := some (ActVal.str proj.description), newValue := some (ActVal.str d) }]
    else []
  | none => []

/-- All activities one `updateProject` call prepends, newest first
(description, then id, then name — each is unshifted in the opposite
order). -/
def expectedUpdateActs (proj : Project) (u : ProjectUpdates) (a1 a2 a3 : String) (now : Nat) : List Activity :=
  descChangeActs proj u a3 now ++ idChangeActs proj u a2 now ++ nameChangeActs proj u a1 now

/-- The activity a cross-column `moveProject` logs. -/
def movedActivity (fromTitle toTitle aid : String) (now : Nat) : Activity :=
  { id := aid, action := "moved", description := movedDesc fromTitle toTitle, timestamp := now,
    oldValue := none, newValue := none }

/-- The activity `createProject` logs for the fresh project. -/
def createdActivity (aid : String) (now : Nat) : Activity :=
  { id := aid, action := "created", description := "Project created", timestamp := now,
    oldValue := none, newValue := none }

/-- Fixture link for concrete witnesses. -/
def wLink1 : Link := { id := "l1", url := "http://a", title := "T1", timestamp := 1 }

/-- Fixture comment for concrete witnesses. -/
def wComment1 : Comment := { id := "m1", text := "hi", timestamp := 2 }

/-- Fixture project for concrete witnesses. -/
def wProj1 : Project :=
  { id := "p1", projectId := "KAN-007", projectName := "Alpha", description := "d",
    links := [wLink1], comments := [wComment1], activityLog := [] }

/-- Fixture column holding `wProj1`. -/
def wCol1 : Column := { id := "c1", title := "To Do", order := 0, projects := [wProj1] }

/-- Fixture empty column. -/
def wCol2 : Column := { id := "c2", title := "Done", order := 1, projects := [] }

/-- Fixture board. -/
def wBoard1 : Board :=
  { id := "b1", name := "B", projectIdPfx := "KAN", description := "", columns := [wCol1, wCol2] }

/-- Fixture store with one board. -/
def wState1 : StoreState := { boards := [wBoard1], currentBoardId := some "b1" }

/-- The activities one `updateLink` call logs: exactly one, whose action
depends on which of title/url changed — or none when neither changed. -/
def updateLinkActs (link : Link) (url title aid : String) (now : Nat) : List Activity :=
  if link.title != title && link.url != url then
    [{ id := aid, action := "link_updated", description := "✏️ Link updated", timestamp := now,
       oldValue := some (ActVal.obj [("title", link.title), ("url", link.url)]),
       newValue := some (ActVal.obj [("title", title), ("url", url)]) }]
  else if link.title != title then
    [{ id := aid, action := "link_title_updated", description := "✏️ Link title updated", timestamp := now,
       oldValue := some (ActVal.obj [("oldTitle", link.title), ("url", url)]),
       newValue := some (ActVal.obj [("newTitle", title), ("url", url)]) }]
  else if link.url != url then
    [{ id := aid, action := "link_url_updated", description := "✏️ Link URL updated", timestamp := now,
       oldValue := some (ActVal.obj [("title", title), ("oldUrl", link.url)]),
       newValue := some (ActVal.obj [("title", title), ("newUrl", url)]) }]
  else []

theorem find?_updateFirst_self {α : Type} (p : α → Bool) (f : α → α) (l : List α)
    (hf : ∀ x, p (f x) = p x) :
    (updateFirst p f l).find? p = (l.find? p).map f := by
  induction l with
  | nil => simp [updateFirst]
  | cons x xs ih =>
    cases hpx : p x with
    | true => simp [updateFirst, hpx, List.find?_cons, hf x]
    | false => simp [updateFirst, hpx, List.find?_cons, ih]

theorem find?_updateFirst_disjoint {α : Type} (p q : α → Bool) (f : α → α) (l : List α)
    (hf : ∀ x, q (f x) = q x) (hpq : ∀ x, p x = true → q x = false) :
    (updateFirst p f l).find? q = l.find? q := by
  induction l with
  | nil => simp [updateFirst]
  | cons x xs ih =>
    cases hpx : p x with
    | true => simp [updateFirst, hpx, List.find?_cons, hf x, hpq x hpx]
    | false =>
      cases hqx : q x with
      | true => simp [updateFirst, hpx, List.find?_cons, hqx]
      | false => simp [updateFirst, hpx, List.find?_cons, hqx, ih]

theorem filter_updateFirst {α : Type} (p q : α → Bool) (f : α → α) (l : List α)
    (hf : ∀ x, q (f x) = q x) (hpq : ∀ x, p x = true → q x = false) :
    (updateFirst p f l).filter q = l.filter q := by
  induction l with
  | nil => simp [updateFirst]
  | cons x xs ih =>
    cases hpx : p x with
    | true => simp [updateFirst, hpx, List.filter_cons, hf x, hpq x hpx]
    | false => simp [updateFirst, hpx, List.filter_cons, ih]

theorem map_updateFirst {α β : Type} (p : α → Bool) (f : α → α) (m : α → β) (l : List α)
    (h : ∀ x, p x = true → m (f x) = m x) :
    (updateFirst p f l).map m = l.map m := by
  induction l with
  | nil => simp [updateFirst]
  | cons x xs ih =>
    cases hpx : p x with
    | true => simp [updateFirst, hpx, h x hpx]
    | false => simp [updateFirst, hpx, ih]

theorem filter_removeFirst {α : Type} (p q : α → Bool) (l : List α)
    (hpq : ∀ x, p x = true → q x = false) :
    (removeFirst p l).filter q = l.filter q := by
  induction l with
  | nil => simp [removeFirst]
  | cons x xs ih =>
    cases hpx : p x with
    | true => simp [removeFirst, hpx, List.filter_cons, hpq x hpx]
    | false => simp [removeFirst, hpx, List.filter_cons, ih]

theorem filter_spliceInsert {α : Type} (q : α → Bool) (l : List α) (i : Nat) (a : α)
    (ha : q a = false) :
    (spliceInsert l i a).filter q = l.filter q := by
  have h := List.take_append_drop i l
  calc (spliceInsert l i a).filter q
      = (l.take i).filter q ++ (a :: l.drop i).filter q := by
        simp [spliceInsert, List.filter_append]
    _ = (l.take i).filter q ++ (l.drop i).filter q := by simp [List.filter_cons, ha]
    _ = l.filter q := by rw [← List.filter_append, h]

theorem find?_append_left_none {α : Type} (p : α → Bool) (l1 l2 : List α)
    (h : ∀ x ∈ l1, p x = false) :
    (l1 ++ l2).find? p = l2.find? p := by
  induction l1 with
  | nil => simp
  | cons x xs ih =>
    have hx := h x (by simp)
    simp only [List.cons_append, List.find?_cons, hx]
    exact ih (fun y hy => h y (by simp [hy]))

theorem updateFirst_append_left_none {α : Type} (p : α → Bool) (f : α → α) (l1 l2 : List α)
    (h : ∀ x ∈ l1, p x = false) :
    updateFirst p f (l1 ++ l2) = l1 ++ updateFirst p f l2 := by
  induction l1 with
  | nil => simp
  | cons x xs ih =>
    have hx := h x (by simp)
    have ih2 := ih (fun y hy => h y (by simp [hy]))
    simp [updateFirst, hx, ih2]

theorem find?_spliceInsert_hit {α : Type} (p : α → Bool) (l : List α) (i : Nat) (a : α)
    (ha : p a = true) (h : ∀ x ∈ l, p x = false) :
    (spliceInsert l i a).find? p = some a := by
  rw [spliceInsert, find?_append_left_none p _ _ (fun x hx => h x (List.mem_of_mem_take hx))]
  simp [List.find?_cons, ha]

theorem updateFirst_spliceInsert_hit {α : Type} (p : α → Bool) (f : α → α) (l : List α) (i : Nat)
    (a : α) (ha : p a = true) (h : ∀ x ∈ l, p x = false) :
    updateFirst p f (spliceInsert l i a) = spliceInsert l i (f a) := by
  rw [spliceInsert, updateFirst_append_left_none p f _ _ (fun x hx => h x (List.mem_of_mem_take hx))]
  simp [updateFirst, ha, spliceInsert]

theorem all_updateFirst_of_imp {α : Type} (p : α → Bool) (f : α → α) (g : α → Bool) (l : List α)
    (hl : l.all g = true) (himp : ∀ x, g x = true → g (f x) = true) :
    (updateFirst p f l).all g = true := by
  induction l with
  | nil => simp [updateFirst]
  | cons x xs ih =>
    simp only [List.all_cons, Bool.and_eq_true] at hl
    cases hpx : p x with
    | true => simp [updateFirst, hpx, himp x hl.1, hl.2]
    | false => simp [updateFirst, hpx, hl.1, ih hl.2]

theorem all_removeFirst {α : Type} (p : α → Bool) (g : α → Bool) (l : List α)
    (hl : l.all g = true) :
    (removeFirst p l).all g = true := by
  induction l with
  | nil => simp [removeFirst]
  | cons x xs ih =>
    simp only [List.all_cons, Bool.and_eq_true] at hl
    cases hpx : p x with
    | true => simp [removeFirst, hpx, hl.2]
    | false => simp [removeFirst, hpx, hl.1, ih hl.2]

theorem findBoard_updateBoardIn_self (bid : String) (F : Board → Board) (s : StoreState)
    (hf : ∀ b, (F b).id = b.id) :
    findBoard (updateBoardIn bid F s) bid = (findBoard s bid).map F := by
  unfold findBoard updateBoardIn
  exact find?_updateFirst_self _ _ _ (fun b => by simp [hf b])

theorem findColumn_updateColumnIn_self (bid cid : String) (f : Column → Column) (s : StoreState)
    (hf : ∀ c, (f c).id = c.id) :
    findColumn (updateColumnIn bid cid f s) bid cid = (findColumn s bid cid).map f := by
  have hrw := findBoard_updateBoardIn_self bid
    (fun b => { b with columns := updateFirst (fun c => c.id == cid) f b.columns }) s (fun b => rfl)
  unfold findColumn updateColumnIn
  rw [hrw]
  cases hb : findBoard s bid with
  | none => rfl
  | some b =>
    simp only [Option.map_some', Option.some_bind]
    unfold findColumnIn
    exact find?_updateFirst_self _ _ _ (fun c => by simp [hf c])

theorem findProject_updateProjectIn_self (bid cid pid : String) (f : Project → Project)
    (s : StoreState) (hf : ∀ p, (f p).id = p.id) :
    findProject (updateProjectIn bid cid pid f s) bid cid pid = (findProject s bid cid pid).map f := by
  have hrw := findColumn_updateColumnIn_self bid cid
    (fun c => { c with projects := updateFirst (fun p => p.id == pid) f c.projects }) s (fun c => rfl)
  unfold findProject updateProjectIn
  rw [hrw]
  cases hc : findColumn s bid cid with
  | none => rfl
  | some c =>
    simp only [Option.map_some', Option.some_bind]
    unfold findProjectIn
    exact find?_updateFirst_self _ _ _ (fun p => by simp [hf p])

theorem logActivity_eq_updateProjectIn (bid cid pid action descr : String)
    (oldValue newValue : Option ActVal) (aid : String) (now : Nat) (s : StoreState) (q : Project)
    (h : findProject s bid cid pid = some q) :
    logActivity bid cid pid action descr oldValue newValue aid now s =
      updateProjectIn bid cid pid
        (fun p => { p with activityLog :=
          { id := aid, action := action, description := descr, timestamp := now,
            oldValue := oldValue, newValue := newValue } :: p.activityLog }) s := by
  simp [logActivity, h]

theorem ordersFrom_reindexFrom (cols : List Column) : ∀ k, ordersFrom k (reindexFrom k cols) = true := by
  induction cols with
  | nil => intro k; simp [reindexFrom, ordersFrom]
  | cons c cs ih => intro k; simp [reindexFrom, ordersFrom, ih (k + 1)]

theorem ordersFrom_append_last (cols : List Column) (c : Column) :
    ∀ k, ordersFrom k cols = true → c.order = k + cols.length → ordersFrom k (cols ++ [c]) = true := by
  induction cols with
  | nil => intro k _ hc; simp [ordersFrom, hc]
  | cons d ds ih =>
    intro k h hc
    simp only [ordersFrom, Bool.and_eq_true] at h
    have := ih (k + 1) h.2 (by simp [hc, List.length_cons]; omega)
    simp [ordersFrom, h.1, this]

theorem ordersFrom_updateFirst (p : Column → Bool) (f : Column → Column) (cols : List Column)
    (hf : ∀ c, (f c).order = c.order) :
    ∀ k, ordersFrom k (updateFirst p f cols) = ordersFrom k cols := by
  induction cols with
  | nil => intro k; simp [updateFirst]
  | cons c cs ih =>
    intro k
    cases hpc : p c with
    | true => simp [updateFirst, hpc, ordersFrom, hf c]
    | false => simp [updateFirst, hpc, ordersFrom, ih (k + 1)]

theorem orderOK_updateBoardIn (bid : String) (F : Board → Board) (s : StoreState)
    (hF : ∀ b, ordersFrom 0 b.columns = true → ordersFrom 0 (F b).columns = true)
    (h : orderOK s = true) :
    orderOK (updateBoardIn bid F s) = true := by
  unfold orderOK updateBoardIn at *
  exact all_updateFirst_of_imp _ _ _ _ h hF

theorem orderOK_updateColumnIn (bid cid : String) (f : Column → Column) (s : StoreState)
    (hf : ∀ c, (f c).order = c.order) (h : orderOK s = true) :
    orderOK (updateColumnIn bid cid f s) = true := by
  unfold updateColumnIn
  exact orderOK_updateBoardIn _ _ _
    (fun b hb => by rw [ordersFrom_updateFirst _ _ _ hf]; exact hb) h

theorem orderOK_updateProjectIn (bid cid pid : String) (f : Project → Project) (s : StoreState)
    (h : orderOK s = true) :
    orderOK (updateProjectIn bid cid pid f s) = true := by
  unfold updateProjectIn
  exact orderOK_updateColumnIn _ _ _ _ (fun c => rfl) h

theorem orderOK_logActivity (bid cid pid action descr : String) (oldValue newValue : Option ActVal)
    (aid : String) (now : Nat) (s : StoreState) (h : orderOK s = true) :
    orderOK (logActivity bid cid pid action descr oldValue newValue aid now s) = true := by
  unfold logActivity
  cases findProject s bid cid pid with
  | none => exact h
  | some q => exact orderOK_updateProjectIn _ _ _ _ _ h

theorem boardsExcept_updateBoardIn (bid : String) (F : Board → Board) (s : StoreState)
    (hf : ∀ b, (F b).id = b.id) :
    boardsExcept (updateBoardIn bid F s) bid = boardsExcept s bid := by
  unfold boardsExcept updateBoardIn
  exact filter_updateFirst _ _ _ _ (fun b => by simp [hf b]) (fun b hb => by simp_all)

theorem boardsExcept_updateProjectIn (bid cid pid : String) (f : Project → Project) (s : StoreState) :
    boardsExcept (updateProjectIn bid cid pid f s) bid = boardsExcept s bid := by
  unfold updateProjectIn updateColumnIn
  exact boardsExcept_updateBoardIn _ _ _ (fun b => rfl)

theorem boardsExcept_logActivity (bid cid pid action descr : String)
    (oldValue newValue : Option ActVal) (aid : String) (now : Nat) (s : StoreState) :
    boardsExcept (logActivity bid cid pid action descr oldValue newValue aid now s) bid =
      boardsExcept s bid := by
  unfold logActivity
  cases findProject s bid cid pid with
  | none => rfl
  | some q => exact boardsExcept_updateProjectIn _ _ _ _ _

theorem otherProjsView_updateColumnIn (bid cid pid : String) (f : Column → Column) (s : StoreState)
    (hf : ∀ c, (f c).id = c.id)
    (hfp : ∀ c, (f c).projects.filter (fun p => !(p.id == pid)) =
      c.projects.filter (fun p => !(p.id == pid))) :
    otherProjsView (updateColumnIn bid cid f s) bid pid = otherProjsView s bid pid := by
  have hrw := findBoard_updateBoardIn_self bid
    (fun b => { b with columns := updateFirst (fun c => c.id == cid) f b.columns }) s (fun b => rfl)
  unfold otherProjsView updateColumnIn
  rw [hrw]
  cases hb : findBoard s bid with
  | none => rfl
  | some b =>
    simp only [Option.map_some']
    congr 1
    exact map_updateFirst _ _ _ _ (fun c _ => by simp [hf c, hfp c])

theorem otherProjsView_updateProjectIn (bid cid pid : String) (f : Project → Project)
    (s : StoreState) (hf : ∀ p, (f p).id = p.id) :
    otherProjsView (updateProjectIn bid cid pid f s) bid pid = otherProjsView s bid pid := by
  unfold updateProjectIn
  exact otherProjsView_updateColumnIn _ _ _ _ _ (fun c => rfl)
    (fun c => filter_updateFirst _ _ _ _ (fun p => by simp [hf p]) (fun p hp => by simp_all))

theorem otherProjsView_logActivity (bid cid pid action descr : String)
    (oldValue newValue : Option ActVal) (aid : String) (now : Nat) (s : StoreState) :
    otherProjsView (logActivity bid cid pid action descr oldValue newValue aid now s) bid pid =
      otherProjsView s bid pid := by
  unfold logActivity
  cases findProject s bid cid pid with
  | none => rfl
  | some q => exact otherProjsView_updateProjectIn _ _ _ _ _ (fun p => rfl)

theorem le_foldl_projFoldMax (l : List Project) : ∀ m, m ≤ l.foldl projFoldMax m := by
  induction l with
  | nil => intro m; simp
  | cons p ps ih =>
    intro m
    have h1 : m ≤ projFoldMax m p := by
      unfold projFoldMax
      cases trailingNum p.projectId with
      | none => exact Nat.le_refl m
      | some num => dsimp only; split <;> omega
    simpa [List.foldl_cons] using Nat.le_trans h1 (ih (projFoldMax m p))

theorem mem_le_foldl_projFoldMax (l : List Project) :
    ∀ m p n, p ∈ l → trailingNum p.projectId = some n → n ≤ l.foldl projFoldMax m := by
  induction l with
  | nil => intro m p n hp _; cases hp
  | cons q qs ih =>
    intro m p n hp ht
    rcases List.mem_cons.mp hp with h | h
    · subst h
      have h1 : n ≤ projFoldMax m p := by
        unfold projFoldMax; rw [ht]; dsimp only; split <;> omega
      simpa [List.foldl_cons] using Nat.le_trans h1 (le_foldl_projFoldMax qs (projFoldMax m p))
    · simpa [List.foldl_cons] using ih (projFoldMax m q) p n h ht

theorem le_foldl_colFoldMax (l : List Column) : ∀ m, m ≤ l.foldl colFoldMax m := by
  induction l with
  | nil => intro m; simp
  | cons c cs ih =>
    intro m
    have h1 : m ≤ colFoldMax m c := le_foldl_projFoldMax c.projects m
    simpa [List.foldl_cons] using Nat.le_trans h1 (ih (colFoldMax m c))

theorem mem_le_foldl_colFoldMax (l : List Column) :
    ∀ m c p n, c ∈ l → p ∈ c.projects → trailingNum p.projectId = some n →
      n ≤ l.foldl colFoldMax m := by
  induction l with
  | nil => intro m c p n hc _ _; cases hc
  | cons d ds ih =>
    intro m c p n hc hp ht
    rcases List.mem_cons.mp hc with h | h
    · subst h
      have h1 : n ≤ colFoldMax m c := mem_le_foldl_projFoldMax c.projects m p n hp ht
      simpa [List.foldl_cons] using Nat.le_trans h1 (le_foldl_colFoldMax ds (colFoldMax m c))
    · simpa [List.foldl_cons] using ih (colFoldMax m d) c p n h hp ht

theorem mem_doubleQuotesCh (l : List Char) (c : Char) (hc : c ≠ '"') :
    c ∈ doubleQuotesCh l ↔ c ∈ l := by
  induction l with
  | nil => simp [doubleQuotesCh]
  | cons x xs ih =>
    by_cases hx : x = '"'
    · subst hx
      simp [doubleQuotesCh, ih, hc]
    · simp [doubleQuotesCh, hx, ih]

theorem mem_doubleQuotesCh_quote (l : List Char) :
    '"' ∈ doubleQuotesCh l ↔ '"' ∈ l := by
  induction l with
  | nil => simp [doubleQuotesCh]
  | cons x xs ih =>
    by_cases hx : x = '"'
    · subst hx
      simp [doubleQuotesCh]
    · simp [doubleQuotesCh, hx, ih]

theorem doubleQuotesCh_of_no_quote (l : List Char) (h : '"' ∉ l) :
    doubleQuotesCh l = l := by
  induction l with
  | nil => rfl
  | cons x xs ih =>
    have hx : ¬(x = '"') := fun he => h (by simp [he])
    rw [doubleQuotesCh, if_neg hx, ih (fun hm => h (by simp [hm]))]

/-- C6: in the CSV export, a field value containing a comma, double quote
or newline is emitted wrapped in double quotes with internal quotes
doubled, and a field value containing none of these characters is emitted
unchanged. -/
theorem C6_csv_field_escaping (s : String) :
    csvEscape s =
      if ',' ∈ s.data ∨ '\n' ∈ s.data ∨ '"' ∈ s.data then
        "\"" ++ String.mk (doubleQuotesCh s.data) ++ "\""
      else s := by
  unfold csvEscape containsChar
  by_cases h0 : s = ""
  · subst h0; simp
  · have hbe : (s == "") = false := by simp [h0]
    simp only [hbe, Bool.false_eq_true, if_false]
    by_cases hsp : ',' ∈ s.data ∨ '\n' ∈ s.data ∨ '"' ∈ s.data
    · rw [if_pos hsp]
      have hcond : ((doubleQuotesCh s.data).contains ','
          || (doubleQuotesCh s.data).contains '\n'
          || (doubleQuotesCh s.data).contains '"') = true := by
        rcases hsp with h | h | h
        · have hm : ',' ∈ doubleQuotesCh s.data := (mem_doubleQuotesCh _ _ (by decide)).mpr h
          simp [hm]
        · have hm : '\n' ∈ doubleQuotesCh s.data := (mem_doubleQuotesCh _ _ (by decide)).mpr h
          simp [hm]
        · have hm : '"' ∈ doubleQuotesCh s.data := (mem_doubleQuotesCh_quote _).mpr h
          simp [hm]
      rw [if_pos hcond]
    · rw [if_neg hsp]
      push_neg at hsp
      obtain ⟨h1, h2, h3⟩ := hsp
      have hdq : doubleQuotesCh s.data = s.data := doubleQuotesCh_of_no_quote _ h3
      rw [hdq]
      have hcond : (s.data.contains ',' || s.data.contains '\n' || s.data.contains '"') = false := by
        simp [h1, h2, h3]
      rw [if_neg (by simp [hcond, h1, h2, h3])]

/-- C7: an import whose parsed top-level value lacks a `boards` array is
rejected with a user-visible notice, the store state is unchanged, and no
persistence write happens. -/
theorem C7_import_reject (d : Snapshot) (confirmReplace : Bool) (s : StoreState)
    (h : d.boards = none) :
    importFromJSON d confirmReplace s =
      { state := s, saved := false, toast := some "❌ Invalid backup file format" } := by
  unfold importFromJSON
  rw [h]

theorem C7_import_reject_witness :
    importFromJSON { boards := none, currentBoardId := none, exportedAt := none, projectCount := none }
      true wState1 =
      { state := wState1, saved := false, toast := some "❌ Invalid backup file format" } :=
  C7_import_reject _ true wState1 rfl

/-- C8: exporting a snapshot of a non-empty store and importing it back
with confirmation granted reproduces the identical board/column/project
tree (the `boards` list); `exportedAt`-style metadata is outside the
tree. -/
theorem C8_export_import_roundtrip (s : StoreState) (now : Nat) (snap : Snapshot)
    (h : exportSnapshot s now = some snap) :
    (importFromJSON snap true s).state.boards = s.boards := by
  unfold exportSnapshot at h
  by_cases he : s.boards.isEmpty
  · rw [if_pos he] at h; cases h
  · rw [if_neg he] at h
    have hsnap := Option.some.inj h
    subst hsnap
    unfold importFromJSON
    simp only [Bool.not_true, Bool.and_false, Bool.false_eq_true, if_false]
    cases hb : s.boards with
    | nil => simp
    | cons b0 rest =>
      cases hcur : s.currentBoardId with
      | none => simp
      | some cbid =>
        cases hf : (b0 :: rest).find? (fun b => b.id == cbid) <;> simp [hb, hcur, hf]

theorem C8_export_import_roundtrip_witness :
    (importFromJSON
      { boards := some [wBoard1], currentBoardId := some "b1",
        exportedAt := some 3, projectCount := some 1 } true wState1).state.boards =
      wState1.boards :=
  C8_export_import_roundtrip wState1 3 _ rfl

/-- C5: every store operation that resolves an id chain
(board/column/project/link/comment) is a silent no-op when any id in the
chain fails to resolve: the state is returned unchanged (so no activity is
appended) and no persistence write happens.  Totality of `applyOp` is the
counterpart of "throws no exception". -/
theorem C5_lookup_miss_noop (op : Op) (s : StoreState) (h : chainResolves op s = false) :
    applyOp op s = (s, false) := by
  cases op with
  | createBoard name pfx descr bidNew c1 c2 c3 => simp [chainResolves] at h
  | updateBoard bid u =>
    cases hb : findBoard s bid with
    | none => simp [applyOp, updateBoard, hb]
    | some b => exfalso; simp [chainResolves, hb] at h
  | deleteBoard bid =>
    cases hb : findBoard s bid with
    | none => simp [applyOp, deleteBoard, hb]
    | some b => exfalso; simp [chainResolves, hb] at h
  | createColumn bid title colIdNew =>
    cases hb : findBoard s bid with
    | none => simp [applyOp, createColumn, hb]
    | some b => exfalso; simp [chainResolves, hb] at h
  | updateColumn bid cid u =>
    cases hc : findColumn s bid cid with
    | none => simp [applyOp, updateColumn, hc]
    | some c => exfalso; simp [chainResolves, hc] at h
  | deleteColumn bid cid =>
    cases hc : findColumn s bid cid with
    | none => simp [applyOp, deleteColumn, hc]
    | some c => exfalso; simp [chainResolves, hc] at h
  | reorderColumns bid fromIndex toIndex =>
    cases hb : findBoard s bid with
    | none => simp [applyOp, reorderColumns, hb]
    | some b => exfalso; simp [chainResolves, hb] at h
  | createProject bid cid pidNew aid now =>
    cases hb : findBoard s bid with
    | none => simp [applyOp, createProject, hb]
    | some b =>
      cases hc : findColumnIn b cid with
      | none => simp [applyOp, createProject, hb, hc]
      | some c => exfalso; simp [chainResolves, findColumn, hb, hc] at h
  | updateProject bid cid pid u a1 a2 a3 now =>
    cases hp : findProject s bid cid pid with
    | none => simp [applyOp, updateProject, hp]
    | some proj => exfalso; simp [chainResolves, hp] at h
  | deleteProject bid cid pid =>
    cases hp : findProject s bid cid pid with
    | none => simp [applyOp, deleteProject, hp]
    | some proj => exfalso; simp [chainResolves, hp] at h
  | moveProject bid fromCid toCid pid toIndex aid now =>
    cases hb : findBoard s bid with
    | none => simp [applyOp, moveProject, hb]
    | some b =>
      cases hf : findColumnIn b fromCid with
      | none => simp [applyOp, moveProject, hb, hf]
      | some fc =>
        cases ht : findColumnIn b toCid with
        | none => simp [applyOp, moveProject, hb, hf, ht]
        | some tc =>
          cases hp : findProjectIn fc pid with
          | none => simp [applyOp, moveProject, hb, hf, ht, hp]
          | some p => exfalso; simp [chainResolves, findColumn, hb, hf, ht, hp] at h
  | addLink bid cid pid url title lid aid now =>
    cases hp : findProject s bid cid pid with
    | none => simp [applyOp, addLink, hp]
    | some proj => exfalso; simp [chainResolves, hp] at h
  | updateLink bid cid pid lid url title aid now =>
    cases hp : findProject s bid cid pid with
    | none => simp [applyOp, updateLink, hp]
    | some proj =>
      cases hl : proj.links.find? (fun l => l.id == lid) with
      | none => simp [applyOp, updateLink, hp, hl]
      | some link => exfalso; simp [chainResolves, hp, hl] at h
  | deleteLink bid cid pid lid aid now =>
    cases hp : findProject s bid cid pid with
    | none => simp [applyOp, deleteLink, hp]
    | some proj =>
      cases hl : proj.links.find? (fun l => l.id == lid) with
      | none => simp [applyOp, deleteLink, hp, hl]
      | some link => exfalso; simp [chainResolves, hp, hl] at h
  | addComment bid cid pid text cmid aid now =>
    cases hp : findProject s bid cid pid with
    | none => simp [applyOp, addComment, hp]
    | some proj => exfalso; simp [chainResolves, hp] at h
  | updateComment bid cid pid cmid text aid now =>
    cases hp : findProject s bid cid pid with
    | none => simp [applyOp, updateComment, hp]
    | some proj =>
      cases hc : proj.comments.find? (fun c => c.id == cmid) with
      | none => simp [applyOp, updateComment, hp, hc]
      | some comment => exfalso; simp [chainResolves, hp, hc] at h
  | deleteComment bid cid pid cmid aid now =>
    cases hp : findProject s bid cid pid with
    | none => simp [applyOp, deleteComment, hp]
    | some proj =>
      cases hc : proj.comments.find? (fun c => c.id == cmid) with
      | none => simp [applyOp, deleteComment, hp, hc]
      | some comment => exfalso; simp [chainResolves, hp, hc] at h
  | logActivity bid cid pid action descr oldValue newValue aid now =>
    cases hp : findProject s bid cid pid with
    | none => simp [applyOp, logActivity, hp]
    | some proj => exfalso; simp [chainResolves, hp] at h

theorem C5_lookup_miss_noop_witness :
    applyOp (Op.updateProject "nosuch" "c1" "p1"
      { projectName := some "X", projectId := none, description := none } "a1" "a2" "a3" 7) wState1 =
      (wState1, false) :=
  C5_lookup_miss_noop _ wState1 (by decide)

theorem all_updateFirst_of_find? {α : Type} (p g : α → Bool) (f : α → α) (l : List α) (b : α)
    (hl : l.all g = true) (hfind : l.find? p = some b) (hb : g b = true → g (f b) = true) :
    (updateFirst p f l).all g = true := by
  induction l with
  | nil => simp at hfind
  | cons x xs ih =>
    simp only [List.all_cons, Bool.and_eq_true] at hl
    cases hpx : p x with
    | true =>
      rw [List.find?_cons, hpx] at hfind
      have hbx : b = x := by cases hfind; rfl
      subst hbx
      simp [updateFirst, hpx, hb hl.1, hl.2]
    | false =>
      rw [List.find?_cons, hpx] at hfind
      simp [updateFirst, hpx, hl.1, ih hl.2 hfind]

theorem orderOK_updateBoardIn_found (bid : String) (F : Board → Board) (s : StoreState) (b : Board)
    (hfind : findBoard s bid = some b)
    (hF : ordersFrom 0 b.columns = true → ordersFrom 0 (F b).columns = true)
    (h : orderOK s = true) :
    orderOK (updateBoardIn bid F s) = true := by
  unfold orderOK updateBoardIn at *
  exact all_updateFirst_of_find? _ _ _ _ b h hfind hF

/-- C3: every store operation preserves the invariant that each column's
`order` equals its index in its board's column sequence (`deleteColumn`
and `reorderColumns` reindex every remaining column, `createColumn`
assigns `order = columns.length`).  `opIndexOK` excludes the one case the
source cannot complete: an out-of-range `fromIndex` makes the JS
`reorderColumns` throw mid-mutation. -/
theorem C3_column_order_invariant (op : Op) (s : StoreState)
    (hidx : opIndexOK op s = true) (h : orderOK s = true) :
    orderOK (applyOp op s).1 = true := by
  cases op with
  | createBoard name pfx descr bidNew c1 c2 c3 =>
    unfold orderOK at h ⊢
    simp [applyOp, createBoard, List.all_append, defaultColumns, ordersFrom, h]
  | updateBoard bid u =>
    cases hb : findBoard s bid with
    | none => simpa [applyOp, updateBoard, hb] using h
    | some b =>
      simp only [applyOp, updateBoard, hb]
      exact orderOK_updateBoardIn _ _ _ (fun b2 hb2 => hb2) h
  | deleteBoard bid =>
    cases hb : findBoard s bid with
    | none => simpa [applyOp, deleteBoard, hb] using h
    | some b =>
      simp only [applyOp, deleteBoard, hb]
      unfold orderOK at h ⊢
      exact all_removeFirst _ _ _ h
  | createColumn bid title colIdNew =>
    cases hb : findBoard s bid with
    | none => simpa [applyOp, createColumn, hb] using h
    | some b =>
      simp only [applyOp, createColumn, hb]
      apply orderOK_updateBoardIn_found bid _ s b hb _ h
      intro hb2
      exact ordersFrom_append_last b.columns _ 0 hb2 (by simp)
  | updateColumn bid cid u =>
    cases hc : findColumn s bid cid with
    | none => simpa [applyOp, updateColumn, hc] using h
    | some c =>
      simp only [applyOp, updateColumn, hc]
      exact orderOK_updateColumnIn _ _ _ _ (fun c2 => rfl) h
  | deleteColumn bid cid =>
    cases hc : findColumn s bid cid with
    | none => simpa [applyOp, deleteColumn, hc] using h
    | some c =>
      simp only [applyOp, deleteColumn, hc]
      exact orderOK_updateBoardIn _ _ _ (fun b2 _ => ordersFrom_reindexFrom _ 0) h
  | reorderColumns bid fromIndex toIndex =>
    cases hb : findBoard s bid with
    | none => simpa [applyOp, reorderColumns, hb] using h
    | some b =>
      cases hg : b.columns[fromIndex]? with
      | none => simpa [applyOp, reorderColumns, hb, hg] using h
      | some c =>
        simp only [applyOp, reorderColumns, hb, hg]
        exact orderOK_updateBoardIn _ _ _ (fun b2 _ => ordersFrom_reindexFrom _ 0) h
  | createProject bid cid pidNew aid now =>
    cases hb : findBoard s bid with
    | none => simpa [applyOp, createProject, hb] using h
    | some b =>
      cases hc : findColumnIn b cid with
      | none => simpa [applyOp, createProject, hb, hc] using h
      | some c =>
        simp only [applyOp, createProject, hb, hc]
        apply orderOK_logActivity
        exact orderOK_updateColumnIn _ _ _ _ (fun c2 => rfl) h
  | updateProject bid cid pid u a1 a2 a3 now =>
    cases hp : findProject s bid cid pid with
    | none => simpa [applyOp, updateProject, hp] using h
    | some proj =>
      simp only [applyOp, updateProject, hp]
      apply orderOK_updateProjectIn
      rcases u with ⟨un, ui, ud⟩
      cases ud <;> cases ui <;> cases un <;> dsimp only <;>
        first
        | exact h
        | (split_ifs <;> (repeat apply orderOK_logActivity) <;> exact h)
  | deleteProject bid cid pid =>
    cases hp : findProject s bid cid pid with
    | none => simpa [applyOp, deleteProject, hp] using h
    | some proj =>
      simp only [applyOp, deleteProject, hp]
      exact orderOK_updateColumnIn _ _ _ _ (fun c2 => rfl) h
  | moveProject bid fromCid toCid pid toIndex aid now =>
    cases hb : findBoard s bid with
    | none => simpa [applyOp, moveProject, hb] using h
    | some b =>
      cases hf : findColumnIn b fromCid with
      | none => simpa [applyOp, moveProject, hb, hf] using h
      | some fc =>
        cases ht : findColumnIn b toCid with
        | none => simpa [applyOp, moveProject, hb, hf, ht] using h
        | some tc =>
          cases hne : fromCid != toCid with
          | true =>
            cases hp : findProjectIn fc pid with
            | none => simpa [applyOp, moveProject, hb, hf, ht, hne, hp] using h
            | some p =>
              simp only [applyOp, moveProject, hb, hf, ht, hne, hp, if_true]
              apply orderOK_logActivity
              apply orderOK_updateBoardIn _ _ _ _ h
              intro b2 hb2
              dsimp only
              rw [ordersFrom_updateFirst (fun c => c.id == toCid)
                    (fun c => { c with projects := spliceInsert c.projects toIndex p }) _ (fun c2 => rfl),
                  ordersFrom_updateFirst (fun c => c.id == fromCid)
                    (fun c => { c with projects := removeFirst (fun q => q.id == pid) c.projects }) _ (fun c2 => rfl)]
              exact hb2
          | false =>
            cases hp : findProjectIn fc pid with
            | none => simpa [applyOp, moveProject, hb, hf, ht, hne, hp] using h
            | some p =>
              simp only [applyOp, moveProject, hb, hf, ht, hne, hp, Bool.false_eq_true, if_false]
              exact orderOK_updateColumnIn _ _ _ _ (fun c2 => rfl) h
  | addLink bid cid pid url title lid aid now =>
    cases hp : findProject s bid cid pid with
    | none => simpa [applyOp, addLink, hp] using h
    | some proj =>
      simp only [applyOp, addLink, hp]
      apply orderOK_logActivity
      exact orderOK_updateProjectIn _ _ _ _ _ h
  | updateLink bid cid pid lid url title aid now =>
    cases hp : findProject s bid cid pid with
    | none => simpa [applyOp, updateLink, hp] using h
    | some proj =>
      cases hl : proj.links.find? (fun l => l.id == lid) with
      | none => simpa [applyOp, updateLink, hp, hl] using h
      | some link =>
        simp only [applyOp, updateLink, hp, hl]
        split_ifs <;> (repeat apply orderOK_logActivity) <;>
          exact orderOK_updateProjectIn _ _ _ _ _ h
  | deleteLink bid cid pid lid aid now =>
    cases hp : findProject s bid cid pid with
    | none => simpa [applyOp, deleteLink, hp] using h
    | some proj =>
      cases hl : proj.links.find? (fun l => l.id == lid) with
      | none => simpa [applyOp, deleteLink, hp, hl] using h
      | some link =>
        simp only [applyOp, deleteLink, hp, hl]
        apply orderOK_updateProjectIn
        exact orderOK_logActivity _ _ _ _ _ _ _ _ _ _ h
  | addComment bid cid pid text cmid aid now =>
    cases hp : findProject s bid cid pid with
    | none => simpa [applyOp, addComment, hp] using h
    | some proj =>
      simp only [applyOp, addComment, hp]
      apply orderOK_logActivity
      exact orderOK_updateProjectIn _ _ _ _ _ h
  | updateComment bid cid pid cmid text aid now =>
    cases hp : findProject s bid cid pid with
    | none => simpa [applyOp, updateComment, hp] using h
    | some proj =>
      cases hc : proj.comments.find? (fun c => c.id == cmid) with
      | none => simpa [applyOp, updateComment, hp, hc] using h
      | some comment =>
        simp only [applyOp, updateComment, hp, hc]
        apply orderOK_logActivity
        exact orderOK_updateProjectIn _ _ _ _ _ h
  | deleteComment bid cid pid cmid aid now =>
    cases hp : findProject s bid cid pid with
    | none => simpa [applyOp, deleteComment, hp] using h
    | some proj =>
      cases hc : proj.comments.find? (fun c => c.id == cmid) with
      | none => simpa [applyOp, deleteComment, hp, hc] using h
      | some comment =>
        simp only [applyOp, deleteComment, hp, hc]
        apply orderOK_updateProjectIn
        exact orderOK_logActivity _ _ _ _ _ _ _ _ _ _ h
  | logActivity bid cid pid action descr oldValue newValue aid now =>
    simp only [applyOp]
    exact orderOK_logActivity _ _ _ _ _ _ _ _ _ _ h

theorem C3_column_order_invariant_witness :
    orderOK (applyOp (Op.deleteColumn "b1" "c1") wState1).1 = true :=
  C3_column_order_invariant _ wState1 (by decide) (by decide)

theorem boardsExcept_updateColumnIn (bid cid : String) (f : Column → Column) (s : StoreState) :
    boardsExcept (updateColumnIn bid cid f s) bid = boardsExcept s bid := by
  unfold updateColumnIn
  exact boardsExcept_updateBoardIn _ _ _ (fun b => rfl)

theorem otherProjsView_updateBoardIn (bid pid : String) (F : Board → Board) (s : StoreState)
    (hid : ∀ b, (F b).id = b.id)
    (hview : ∀ b, (F b).columns.map (fun c => (c.id, c.projects.filter (fun p => !(p.id == pid)))) =
      b.columns.map (fun c => (c.id, c.projects.filter (fun p => !(p.id == pid))))) :
    otherProjsView (updateBoardIn bid F s) bid pid = otherProjsView s bid pid := by
  unfold otherProjsView
  rw [findBoard_updateBoardIn_self bid F s hid]
  cases hb : findBoard s bid with
  | none => rfl
  | some b =>
    simp only [Option.map_some']
    congr 1
    exact hview b

/-- C10: a store mutation invoked with a `boardId` leaves every board with
a different id (its whole subtree included) unchanged, and within the
targeted board an operation addressing one project leaves, column by
column, every project with a different id unchanged. -/
theorem C10_frame_effect (op : Op) (s : StoreState) :
    (∀ bid, opBoardId op = some bid → boardsExcept (applyOp op s).1 bid = boardsExcept s bid) ∧
    (∀ bid pid, opBoardId op = some bid → opProjectId op = some pid →
      otherProjsView (applyOp op s).1 bid pid = otherProjsView s bid pid) := by
  cases op with
  | createBoard name pfx descr bidNew c1 c2 c3 =>
    exact ⟨fun bid hb => by simp [opBoardId] at hb,
           fun bid pid hb _ => by simp [opBoardId] at hb⟩
  | updateBoard bid0 u =>
    refine ⟨fun bid hb => ?_, fun bid pid hb hp => by simp [opProjectId] at hp⟩
    obtain rfl : bid0 = bid := Option.some.inj hb
    cases hf : findBoard s bid0 with
    | none => simp [applyOp, updateBoard, hf]
    | some b =>
      simp only [applyOp, updateBoard, hf]
      exact boardsExcept_updateBoardIn _ _ _ (fun b2 => rfl)
  | deleteBoard bid0 =>
    refine ⟨fun bid hb => ?_, fun bid pid hb hp => by simp [opProjectId] at hp⟩
    obtain rfl : bid0 = bid := Option.some.inj hb
    cases hf : findBoard s bid0 with
    | none => simp [applyOp, deleteBoard, hf]
    | some b =>
      simp only [applyOp, deleteBoard, hf]
      unfold boardsExcept
      exact filter_removeFirst _ _ _ (fun b2 hb2 => by simp_all)
  | createColumn bid0 title colIdNew =>
    refine ⟨fun bid hb => ?_, fun bid pid hb hp => by simp [opProjectId] at hp⟩
    obtain rfl : bid0 = bid := Option.some.inj hb
    cases hf : findBoard s bid0 with
    | none => simp [applyOp, createColumn, hf]
    | some b =>
      simp only [applyOp, createColumn, hf]
      exact boardsExcept_updateBoardIn _ _ _ (fun b2 => rfl)
  | updateColumn bid0 cid u =>
    refine ⟨fun bid hb => ?_, fun bid pid hb hp => by simp [opProjectId] at hp⟩
    obtain rfl : bid0 = bid := Option.some.inj hb
    cases hf : findColumn s bid0 cid with
    | none => simp [applyOp, updateColumn, hf]
    | some c =>
      simp only [applyOp, updateColumn, hf]
      exact boardsExcept_updateColumnIn _ _ _ _
  | deleteColumn bid0 cid =>
    refine ⟨fun bid hb => ?_, fun bid pid hb hp => by simp [opProjectId] at hp⟩
    obtain rfl : bid0 = bid := Option.some.inj hb
    cases hf : findColumn s bid0 cid with
    | none => simp [applyOp, deleteColumn, hf]
    | some c =>
      simp only [applyOp, deleteColumn, hf]
      exact boardsExcept_updateBoardIn _ _ _ (fun b2 => rfl)
  | reorderColumns bid0 fromIndex toIndex =>
    refine ⟨fun bid hb => ?_, fun bid pid hb hp => by simp [opProjectId] at hp⟩
    obtain rfl : bid0 = bid := Option.some.inj hb
    cases hf : findBoard s bid0 with
    | none => simp [applyOp, reorderColumns, hf]
    | some b =>
      cases hg : b.columns[fromIndex]? with
      | none => simp [applyOp, reorderColumns, hf, hg]
      | some c =>
        simp only [applyOp, reorderColumns, hf, hg]
        exact boardsExcept_updateBoardIn _ _ _ (fun b2 => rfl)
  | createProject bid0 cid pidNew aid now =>
    constructor
    · intro bid hb
      obtain rfl : bid0 = bid := Option.some.inj hb
      cases hf : findBoard s bid0 with
      | none => simp [applyOp, createProject, hf]
      | some b =>
        cases hc : findColumnIn b cid with
        | none => simp [applyOp, createProject, hf, hc]
        | some c =>
          simp only [applyOp, createProject, hf, hc]
          rw [boardsExcept_logActivity, boardsExcept_updateColumnIn]
    · intro bid pid hb hp
      obtain rfl : bid0 = bid := Option.some.inj hb
      obtain rfl : pidNew = pid := Option.some.inj hp
      cases hf : findBoard s bid0 with
      | none => simp [applyOp, createProject, hf]
      | some b =>
        cases hc : findColumnIn b cid with
        | none => simp [applyOp, createProject, hf, hc]
        | some c =>
          simp only [applyOp, createProject, hf, hc]
          rw [otherProjsView_logActivity]
          apply otherProjsView_updateColumnIn
          · exact fun c2 => rfl
          · intro c2
            simp [List.filter_append, newProjectRecord]
  | updateProject bid0 cid pid0 u a1 a2 a3 now =>
    constructor
    · intro bid hb
      obtain rfl : bid0 = bid := Option.some.inj hb
      cases hp : findProject s bid0 cid pid0 with
      | none => simp [applyOp, updateProject, hp]
      | some proj =>
        simp only [applyOp, updateProject, hp]
        rw [boardsExcept_updateProjectIn]
        rcases u with ⟨un, ui, ud⟩
        cases ud <;> cases ui <;> cases un <;> dsimp only <;>
          first
          | rfl
          | (split_ifs <;> (repeat rw [boardsExcept_logActivity]) <;> rfl)
    · intro bid pid hb hp2
      obtain rfl : bid0 = bid := Option.some.inj hb
      obtain rfl : pid0 = pid := Option.some.inj hp2
      cases hp : findProject s bid0 cid pid0 with
      | none => simp [applyOp, updateProject, hp]
      | some proj =>
        simp only [applyOp, updateProject, hp]
        have hrw := fun t => otherProjsView_updateProjectIn bid0 cid pid0 (applyProjectUpdates u) t (fun q => rfl)
        rw [hrw]
        rcases u with ⟨un, ui, ud⟩
        cases ud <;> cases ui <;> cases un <;> dsimp only <;>
          first
          | rfl
          | (split_ifs <;> (repeat rw [otherProjsView_logActivity]) <;> rfl)
  | deleteProject bid0 cid pid0 =>
    constructor
    · intro bid hb
      obtain rfl : bid0 = bid := Option.some.inj hb
      cases hp : findProject s bid0 cid pid0 with
      | none => simp [applyOp, deleteProject, hp]
      | some proj =>
        simp only [applyOp, deleteProject, hp]
        exact boardsExcept_updateColumnIn _ _ _ _
    · intro bid pid hb hp2
      obtain rfl : bid0 = bid := Option.some.inj hb
      obtain rfl : pid0 = pid := Option.some.inj hp2
      cases hp : findProject s bid0 cid pid0 with
      | none => simp [applyOp, deleteProject, hp]
      | some proj =>
        simp only [applyOp, deleteProject, hp]
        apply otherProjsView_updateColumnIn
        · exact fun c2 => rfl
        · intro c2
          exact filter_removeFirst _ _ _ (fun q hq => by simp_all)
  | moveProject bid0 fromCid toCid pid0 toIndex aid now =>
    constructor
    · intro bid hb
      obtain rfl : bid0 = bid := Option.some.inj hb
      cases hf : findBoard s bid0 with
      | none => simp [applyOp, moveProject, hf]
      | some b =>
        cases hfc : findColumnIn b fromCid with
        | none => simp [applyOp, moveProject, hf, hfc]
        | some fc =>
          cases htc : findColumnIn b toCid with
          | none => simp [applyOp, moveProject, hf, hfc, htc]
          | some tc =>
            cases hne : fromCid != toCid with
            | true =>
              cases hpp : findProjectIn fc pid0 with
              | none => simp [applyOp, moveProject, hf, hfc, htc, hne, hpp]
              | some p =>
                simp only [applyOp, moveProject, hf, hfc, htc, hne, hpp, if_true]
                rw [boardsExcept_logActivity]
                exact boardsExcept_updateBoardIn _ _ _ (fun b2 => rfl)
            | false =>
              cases hpp : findProjectIn fc pid0 with
              | none => simp [applyOp, moveProject, hf, hfc, htc, hne, hpp]
              | some p =>
                simp only [applyOp, moveProject, hf, hfc, htc, hne, hpp, Bool.false_eq_true, if_false]
                exact boardsExcept_updateColumnIn _ _ _ _
    · intro bid pid hb hp2
      obtain rfl : bid0 = bid := Option.some.inj hb
      obtain rfl : pid0 = pid := Option.some.inj hp2
      cases hf : findBoard s bid0 with
      | none => simp [applyOp, moveProject, hf]
      | some b =>
        cases hfc : findColumnIn b fromCid with
        | none => simp [applyOp, moveProject, hf, hfc]
        | some fc =>
          cases htc : findColumnIn b toCid with
          | none => simp [applyOp, moveProject, hf, hfc, htc]
          | some tc =>
            cases hne : fromCid != toCid with
            | true =>
              cases hpp : findProjectIn fc pid0 with
              | none => simp [applyOp, moveProject, hf, hfc, htc, hne, hpp]
              | some p =>
                have hpid : (p.id == pid0) = true := by
                  have := List.find?_some hpp
                  simpa using this
                simp only [applyOp, moveProject, hf, hfc, htc, hne, hpp, if_true]
                rw [otherProjsView_logActivity]
                apply otherProjsView_updateBoardIn
                · exact fun b2 => rfl
                intro b2
                dsimp only
                rw [map_updateFirst _ _ _ _
                      (fun c2 _ => by simp only []; rw [filter_spliceInsert _ _ _ _ (by simp_all)]),
                    map_updateFirst _ _ _ _
                      (fun c2 _ => by simp only []; rw [filter_removeFirst _ _ _ (fun q hq => by simp_all)])]
            | false =>
              cases hpp : findProjectIn fc pid0 with
              | none => simp [applyOp, moveProject, hf, hfc, htc, hne, hpp]
              | some p =>
                have hpid : (p.id == pid0) = true := by
                  have := List.find?_some hpp
                  simpa using this
                simp only [applyOp, moveProject, hf, hfc, htc, hne, hpp, Bool.false_eq_true, if_false]
                apply otherProjsView_updateColumnIn
                · exact fun c2 => rfl
                · intro c2
                  dsimp only
                  rw [filter_spliceInsert _ _ _ _ (by simp_all),
                      filter_removeFirst _ _ _ (fun q hq => by simp_all)]
  | addLink bid0 cid pid0 url title lid aid now =>
    constructor
    · intro bid hb
      obtain rfl : bid0 = bid := Option.some.inj hb
      cases hp : findProject s bid0 cid pid0 with
      | none => simp [applyOp, addLink, hp]
      | some proj =>
        simp only [applyOp, addLink, hp]
        rw [boardsExcept_logActivity, boardsExcept_updateProjectIn]
    · intro bid pid hb hp2
      obtain rfl : bid0 = bid := Option.some.inj hb
      obtain rfl : pid0 = pid := Option.some.inj hp2
      cases hp : findProject s bid0 cid pid0 with
      | none => simp [applyOp, addLink, hp]
      | some proj =>
        simp only [applyOp, addLink, hp]
        have hrw := fun t => otherProjsView_updateProjectIn bid0 cid pid0
          (fun p => { p with links := p.links ++ [{ id := lid, url := url, title := title, timestamp := now }] })
          t (fun q => rfl)
        rw [otherProjsView_logActivity, hrw]
  | updateLink bid0 cid pid0 lid url title aid now =>
    constructor
    · intro bid hb
      obtain rfl : bid0 = bid := Option.some.inj hb
      cases hp : findProject s bid0 cid pid0 with
      | none => simp [applyOp, updateLink, hp]
      | some proj =>
        cases hl : proj.links.find? (fun l => l.id == lid) with
        | none => simp [applyOp, updateLink, hp, hl]
        | some link =>
          simp only [applyOp, updateLink, hp, hl]
          split_ifs <;> (repeat rw [boardsExcept_logActivity]) <;>
            rw [boardsExcept_updateProjectIn]
    · intro bid pid hb hp2
      obtain rfl : bid0 = bid := Option.some.inj hb
      obtain rfl : pid0 = pid := Option.some.inj hp2
      cases hp : findProject s bid0 cid pid0 with
      | none => simp [applyOp, updateLink, hp]
      | some proj =>
        cases hl : proj.links.find? (fun l => l.id == lid) with
        | none => simp [applyOp, updateLink, hp, hl]
        | some link =>
          simp only [applyOp, updateLink, hp, hl]
          have hrw := fun t => otherProjsView_updateProjectIn bid0 cid pid0
            (fun p => { p with links := updateFirst (fun l => l.id == lid) (fun l => { l with url := url, title := title, timestamp := now }) p.links })
            t (fun q => rfl)
          split_ifs <;> (repeat rw [otherProjsView_logActivity]) <;> rw [hrw]
  | deleteLink bid0 cid pid0 lid aid now =>
    constructor
    · intro bid hb
      obtain rfl : bid0 = bid := Option.some.inj hb
      cases hp : findProject s bid0 cid pid0 with
      | none => simp [applyOp, deleteLink, hp]
      | some proj =>
        cases hl : proj.links.find? (fun l => l.id == lid) with
        | none => simp [applyOp, deleteLink, hp, hl]
        | some link =>
          simp only [applyOp, deleteLink, hp, hl]
          rw [boardsExcept_updateProjectIn, boardsExcept_logActivity]
    · intro bid pid hb hp2
      obtain rfl : bid0 = bid := Option.some.inj hb
      obtain rfl : pid0 = pid := Option.some.inj hp2
      cases hp : findProject s bid0 cid pid0 with
      | none => simp [applyOp, deleteLink, hp]
      | some proj =>
        cases hl : proj.links.find? (fun l => l.id == lid) with
        | none => simp [applyOp, deleteLink, hp, hl]
        | some link =>
          simp only [applyOp, deleteLink, hp, hl]
          have hrw := fun t => otherProjsView_updateProjectIn bid0 cid pid0
            (fun p => { p with links := removeFirst (fun l => l.id == lid) p.links }) t (fun q => rfl)
          rw [hrw, otherProjsView_logActivity]
  | addComment bid0 cid pid0 text cmid aid now =>
    constructor
    · intro bid hb
      obtain rfl : bid0 = bid := Option.some.inj hb
      cases hp : findProject s bid0 cid pid0 with
      | none => simp [applyOp, addComment, hp]
      | some proj =>
        simp only [applyOp, addComment, hp]
        rw [boardsExcept_logActivity, boardsExcept_updateProjectIn]
    · intro bid pid hb hp2
      obtain rfl : bid0 = bid := Option.some.inj hb
      obtain rfl : pid0 = pid := Option.some.inj hp2
      cases hp : findProject s bid0 cid pid0 with
      | none => simp [applyOp, addComment, hp]
      | some proj =>
        simp only [applyOp, addComment, hp]
        have hrw := fun t => otherProjsView_updateProjectIn bid0 cid pid0
          (fun p => { p with comments := p.comments ++ [{ id := cmid, text := text, timestamp := now }] })
          t (fun q => rfl)
        rw [otherProjsView_logActivity, hrw]
  | updateComment bid0 cid pid0 cmid text aid now =>
    constructor
    · intro bid hb
      obtain rfl : bid0 = bid := Option.some.inj hb
      cases hp : findProject s bid0 cid pid0 with
      | none => simp [applyOp, updateComment, hp]
      | some proj =>
        cases hc : proj.comments.find? (fun c => c.id == cmid) with
        | none => simp [applyOp, updateComment, hp, hc]
        | some comment =>
          simp only [applyOp, updateComment, hp, hc]
          rw [boardsExcept_logActivity, boardsExcept_updateProjectIn]
    · intro bid pid hb hp2
      obtain rfl : bid0 = bid := Option.some.inj hb
      obtain rfl : pid0 = pid := Option.some.inj hp2
      cases hp : findProject s bid0 cid pid0 with
      | none => simp [applyOp, updateComment, hp]
      | some proj =>
        cases hc : proj.comments.find? (fun c => c.id == cmid) with
        | none => simp [applyOp, updateComment, hp, hc]
        | some comment =>
          simp only [applyOp, updateComment, hp, hc]
          have hrw := fun t => otherProjsView_updateProjectIn bid0 cid pid0
            (fun p => { p with comments := updateFirst (fun c => c.id == cmid) (fun c => { c with text := text, timestamp := now }) p.comments })
            t (fun q => rfl)
          rw [otherProjsView_logActivity, hrw]
  | deleteComment bid0 cid pid0 cmid aid now =>
    constructor
    · intro bid hb
      obtain rfl : bid0 = bid := Option.some.inj hb
      cases hp : findProject s bid0 cid pid0 with
      | none => simp [applyOp, deleteComment, hp]
      | some proj =>
        cases hc : proj.comments.find? (fun c => c.id == cmid) with
        | none => simp [applyOp, deleteComment, hp, hc]
        | some comment =>
          simp only [applyOp, deleteComment, hp, hc]
          rw [boardsExcept_updateProjectIn, boardsExcept_logActivity]
    · intro bid pid hb hp2
      obtain rfl : bid0 = bid := Option.some.inj hb
      obtain rfl : pid0 = pid := Option.some.inj hp2
      cases hp : findProject s bid0 cid pid0 with
      | none => simp [applyOp, deleteComment, hp]
      | some proj =>
        cases hc : proj.comments.find? (fun c => c.id == cmid) with
        | none => simp [applyOp, deleteComment, hp, hc]
        | some comment =>
          simp only [applyOp, deleteComment, hp, hc]
          have hrw := fun t => otherProjsView_updateProjectIn bid0 cid pid0
            (fun p => { p with comments := removeFirst (fun c => c.id == cmid) p.comments }) t (fun q => rfl)
          rw [hrw, otherProjsView_logActivity]
  | logActivity bid0 cid pid0 action descr oldValue newValue aid now =>
    constructor
    · intro bid hb
      obtain rfl : bid0 = bid := Option.some.inj hb
      simp only [applyOp]
      exact boardsExcept_logActivity _ _ _ _ _ _ _ _ _ _
    · intro bid pid hb hp2
      obtain rfl : bid0 = bid := Option.some.inj hb
      obtain rfl : pid0 = pid := Option.some.inj hp2
      simp only [applyOp]
      exact otherProjsView_logActivity _ _ _ _ _ _ _ _ _ _

theorem C10_frame_effect_witness :
    otherProjsView (applyOp (Op.addComment "b1" "c1" "p1" "note" "m9" "a9" 11) wState1).1 "b1" "p1" =
      otherProjsView wState1 "b1" "p1" :=
  (C10_frame_effect (Op.addComment "b1" "c1" "p1" "note" "m9" "a9" 11) wState1).2 "b1" "p1" rfl rfl

/-- C4: `createProject` gives the new project the display id
`<board prefix>-<NNN>` where `NNN` is 1 plus the maximum trailing-digit
suffix over the `projectId`s of all projects in all columns of the board
(0 when there are none), zero-padded to width 3 — so the new suffix is
strictly greater than every suffix already present on the board.
(`hfresh` says the generated internal id is not already taken in the
target column, which `generateId` guarantees.) -/
theorem C4_create_project_numbering (s : StoreState) (bid cid pidNew aid : String) (now : Nat)
    (b : Board) (col : Column)
    (hb : findBoard s bid = some b) (hc : findColumnIn b cid = some col)
    (hfresh : ∀ p ∈ col.projects, (p.id == pidNew) = false) :
    (createProject bid cid pidNew aid now s).2 = true ∧
    findColumn (createProject bid cid pidNew aid now s).1 bid cid =
      some { col with
              projects := col.projects ++
                [{ newProjectRecord b pidNew (getNextProjectNumber s bid) with
                    activityLog := [createdActivity aid now] }] } ∧
    (∀ c ∈ b.columns, ∀ p ∈ c.projects, ∀ n, trailingNum p.projectId = some n →
      n < getNextProjectNumber s bid) := by
  have hnum : getNextProjectNumber s bid = b.columns.foldl colFoldMax 0 + 1 := by
    unfold getNextProjectNumber
    rw [hb]
  refine ⟨?_, ?_, ?_⟩
  · simp [createProject, hb, hc]
  · simp only [createProject, hb, hc]
    have hcol1 : findColumn
        (updateColumnIn bid cid
          (fun c => { c with projects :=
            c.projects ++ [newProjectRecord b pidNew (getNextProjectNumber s bid)] }) s) bid cid =
        some { col with projects :=
          col.projects ++ [newProjectRecord b pidNew (getNextProjectNumber s bid)] } := by
      rw [findColumn_updateColumnIn_self bid cid
        (fun c => { c with projects :=
          c.projects ++ [newProjectRecord b pidNew (getNextProjectNumber s bid)] }) s (fun c => rfl)]
      rw [findColumn, hb, Option.some_bind, hc, Option.map_some']
    have hproj1 : findProject
        (updateColumnIn bid cid
          (fun c => { c with projects :=
            c.projects ++ [newProjectRecord b pidNew (getNextProjectNumber s bid)] }) s)
        bid cid pidNew = some (newProjectRecord b pidNew (getNextProjectNumber s bid)) := by
      rw [findProject, hcol1, Option.some_bind, findProjectIn]
      rw [find?_append_left_none _ _ _ hfresh]
      simp [newProjectRecord]
    rw [logActivity_eq_updateProjectIn _ _ _ _ _ _ _ _ _ _ _ hproj1]
    have hrw2 := fun t => findColumn_updateColumnIn_self bid cid
      (fun c => { c with projects := updateFirst (fun p => p.id == pidNew) (fun p => { p with activityLog := { id := aid, action := "created", description := "Project created", timestamp := now, oldValue := none, newValue := none } :: p.activityLog }) c.projects })
      t (fun c => rfl)
    rw [updateProjectIn, hrw2]
    rw [hcol1, Option.map_some']
    congr 1
    congr 1
    rw [updateFirst_append_left_none _ _ _ _ hfresh]
    congr 1
    simp [updateFirst, newProjectRecord, createdActivity]
  · intro c hcmem p hpmem n ht
    rw [hnum]
    have := mem_le_foldl_colFoldMax b.columns 0 c p n hcmem hpmem ht
    omega

theorem C4_create_project_numbering_witness :
    (createProject "b1" "c1" "p9" "a9" 5 wState1).2 = true ∧
    findColumn (createProject "b1" "c1" "p9" "a9" 5 wState1).1 "b1" "c1" =
      some { wCol1 with
              projects := wCol1.projects ++
                [{ newProjectRecord wBoard1 "p9" (getNextProjectNumber wState1 "b1") with
                    activityLog := [createdActivity "a9" 5] }] } ∧
    (∀ c ∈ wBoard1.columns, ∀ p ∈ c.projects, ∀ n, trailingNum p.projectId = some n →
      n < getNextProjectNumber wState1 "b1") :=
  C4_create_project_numbering wState1 "b1" "c1" "p9" "a9" 5 wBoard1 wCol1 rfl rfl
    (by decide)

theorem findProject_logActivity (bid cid pid action descr : String)
    (oldValue newValue : Option ActVal) (aid : String) (now : Nat) (s : StoreState) (q : Project)
    (h : findProject s bid cid pid = some q) :
    findProject (logActivity bid cid pid action descr oldValue newValue aid now s) bid cid pid =
      some { q with activityLog :=
        { id := aid, action := action, description := descr, timestamp := now,
          oldValue := oldValue, newValue := newValue } :: q.activityLog } := by
  rw [logActivity_eq_updateProjectIn _ _ _ _ _ _ _ _ _ _ _ h]
  have hrw := findProject_updateProjectIn_self bid cid pid
    (fun p => { p with activityLog := { id := aid, action := action, description := descr, timestamp := now, oldValue := oldValue, newValue := newValue } :: p.activityLog })
    s (fun p => rfl)
  rw [hrw, h, Option.map_some']

theorem findProject_condLogStep (c : Bool) (bid cid pid action descr : String)
    (oldValue newValue : Option ActVal) (aid : String) (now : Nat) (t : StoreState) (q : Project)
    (h : findProject t bid cid pid = some q) :
    findProject (if c then logActivity bid cid pid action descr oldValue newValue aid now t else t)
      bid cid pid =
      some { q with activityLog :=
        (if c then
          [{ id := aid, action := action, description := descr, timestamp := now,
             oldValue := oldValue, newValue := newValue }]
         else []) ++ q.activityLog } := by
  cases c with
  | true =>
    simpa using findProject_logActivity bid cid pid action descr oldValue newValue aid now t q h
  | false => simpa using h

/-- C1 counterexample to the claim as stated: with the current
`projectName` "Alpha", an update whose `projectName` field is present and
different — the empty string — merges the new name but logs zero
activities (the JS guard `updates.projectName && ...` treats the empty
string as absent), where the claim demands exactly one `name_changed`
activity. -/
theorem C1_counterexample :
    (ProjectUpdates.mk (some "") none none).projectName = some "" ∧
    "" ≠ wProj1.projectName ∧
    findProject
      (updateProject "b1" "c1" "p1" (ProjectUpdates.mk (some "") none none) "a1" "a2" "a3" 9 wState1).1
      "b1" "c1" "p1" =
      some { wProj1 with projectName := "" } := by
  refine ⟨rfl, by decide, ?_⟩
  decide

/-- C1 (amended): for a resolvable board/column/project chain,
`updateProject` appends — before merging the partial fields — one
activity per tracked field that is present and different, except that for
`projectName` and `projectId` the incoming value must also be non-empty
(JS truthiness); `description` only needs to be present and different.
The activities carry the old and new plain-string values and land newest
first in the order description, id, name. -/
theorem C1_update_project_activities (s : StoreState) (bid cid pid : String) (u : ProjectUpdates)
    (a1 a2 a3 : String) (now : Nat) (proj : Project)
    (hp : findProject s bid cid pid = some proj) :
    (updateProject bid cid pid u a1 a2 a3 now s).2 = true ∧
    findProject (updateProject bid cid pid u a1 a2 a3 now s).1 bid cid pid =
      some { applyProjectUpdates u proj with
              activityLog := expectedUpdateActs proj u a1 a2 a3 now ++ proj.activityLog } := by
  constructor
  · simp [updateProject, hp]
  · rcases u with ⟨un, ui, ud⟩
    have hrw := fun t => findProject_updateProjectIn_self bid cid pid
      (applyProjectUpdates (ProjectUpdates.mk un ui ud)) t (fun p => rfl)
    cases un with
    | none =>
      cases ui with
      | none =>
        cases ud with
        | none =>
          simp only [updateProject, hp]
          rw [hrw, hp, Option.map_some']
          simp [expectedUpdateActs, nameChangeActs, idChangeActs, descChangeActs,
            applyProjectUpdates]
        | some d =>
          simp only [updateProject, hp]
          have h1 := findProject_condLogStep (d != proj.description) bid cid pid
            "description_updated" "Description updated" (some (ActVal.str proj.description))
            (some (ActVal.str d)) a3 now s proj hp
          rw [hrw, h1, Option.map_some']
          simp [expectedUpdateActs, nameChangeActs, idChangeActs, descChangeActs,
            applyProjectUpdates]
      | some i =>
        cases ud with
        | none =>
          simp only [updateProject, hp]
          have h1 := findProject_condLogStep (i != "" && i != proj.projectId) bid cid pid
            "id_changed" "Project ID changed" (some (ActVal.str proj.projectId))
            (some (ActVal.str i)) a2 now s proj hp
          rw [hrw, h1, Option.map_some']
          simp [expectedUpdateActs, nameChangeActs, idChangeActs, descChangeActs,
            applyProjectUpdates]
        | some d =>
          simp only [updateProject, hp]
          have h1 := findProject_condLogStep (i != "" && i != proj.projectId) bid cid pid
            "id_changed" "Project ID changed" (some (ActVal.str proj.projectId))
            (some (ActVal.str i)) a2 now s proj hp
          have h2 := findProject_condLogStep (d != proj.description) bid cid pid
            "description_updated" "Description updated" (some (ActVal.str proj.description))
            (some (ActVal.str d)) a3 now _ _ h1
          rw [hrw, h2, Option.map_some']
          simp [expectedUpdateActs, nameChangeActs, idChangeActs, descChangeActs,
            applyProjectUpdates]
    | some n =>
      cases ui with
      | none =>
        cases ud with
        | none =>
          simp only [updateProject, hp]
          have h1 := findProject_condLogStep (n != "" && n != proj.projectName) bid cid pid
            "name_changed" "Project name changed" (some (ActVal.str proj.projectName))
            (some (ActVal.str n)) a1 now s proj hp
          rw [hrw, h1, Option.map_some']
          simp [expectedUpdateActs, nameChangeActs, idChangeActs, descChangeActs,
            applyProjectUpdates]
        | some d =>
          simp only [updateProject, hp]
          have h1 := findProject_condLogStep (n != "" && n != proj.projectName) bid cid pid
            "name_changed" "Project name changed" (some (ActVal.str proj.projectName))
            (some (ActVal.str n)) a1 now s proj hp
          have h2 := findProject_condLogStep (d != proj.description) bid cid pid
            "description_updated" "Description updated" (some (ActVal.str proj.description))
            (some (ActVal.str d)) a3 now _ _ h1
          rw [hrw, h2, Option.map_some']
          simp [expectedUpdateActs, nameChangeActs, idChangeActs, descChangeActs,
            applyProjectUpdates]
      | some i =>
        cases ud with
        | none =>
          simp only [updateProject, hp]
          have h1 := findProject_condLogStep (n != "" && n != proj.projectName) bid cid pid
            "name_changed" "Project name changed" (some (ActVal.str proj.projectName))
            (some (ActVal.str n)) a1 now s proj hp
          have h2 := findProject_condLogStep (i != "" && i != proj.projectId) bid cid pid
            "id_changed" "Project ID changed" (some (ActVal.str proj.projectId))
            (some (ActVal.str i)) a2 now _ _ h1
          rw [hrw, h2, Option.map_some']
          simp [expectedUpdateActs, nameChangeActs, idChangeActs, descChangeActs,
            applyProjectUpdates]
        | some d =>
          simp only [updateProject, hp]
          have h1 := findProject_condLogStep (n != "" && n != proj.projectName) bid cid pid
            "name_changed" "Project name changed" (some (ActVal.str proj.projectName))
            (some (ActVal.str n)) a1 now s proj hp
          have h2 := findProject_condLogStep (i != "" && i != proj.projectId) bid cid pid
            "id_changed" "Project ID changed" (some (ActVal.str proj.projectId))
            (some (ActVal.str i)) a2 now _ _ h1
          have h3 := findProject_condLogStep (d != proj.description) bid cid pid
            "description_updated" "Description updated" (some (ActVal.str proj.description))
            (some (ActVal.str d)) a3 now _ _ h2
          rw [hrw, h3, Option.map_some']
          simp [expectedUpdateActs, nameChangeActs, idChangeActs, descChangeActs,
            applyProjectUpdates]

theorem C1_update_project_activities_witness :
    (updateProject "b1" "c1" "p1" (ProjectUpdates.mk (some "Beta") none (some "e"))
      "a1" "a2" "a3" 9 wState1).2 = true ∧
    findProject
      (updateProject "b1" "c1" "p1" (ProjectUpdates.mk (some "Beta") none (some "e"))
        "a1" "a2" "a3" 9 wState1).1 "b1" "c1" "p1" =
      some { applyProjectUpdates (ProjectUpdates.mk (some "Beta") none (some "e")) wProj1 with
              activityLog := expectedUpdateActs wProj1 (ProjectUpdates.mk (some "Beta") none (some "e"))
                "a1" "a2" "a3" 9 ++ wProj1.activityLog } :=
  C1_update_project_activities wState1 "b1" "c1" "p1" _ "a1" "a2" "a3" 9 wProj1 rfl

theorem findColumn_updateColumnIn_ne (bid cid cid2 : String) (f : Column → Column) (s : StoreState)
    (hf : ∀ c, (f c).id = c.id) (hne : cid2 ≠ cid) :
    findColumn (updateColumnIn bid cid f s) bid cid2 = findColumn s bid cid2 := by
  have hrw := findBoard_updateBoardIn_self bid
    (fun b => { b with columns := updateFirst (fun c => c.id == cid) f b.columns }) s (fun b => rfl)
  unfold findColumn updateColumnIn
  rw [hrw]
  cases hb : findBoard s bid with
  | none => rfl
  | some b =>
    simp only [Option.map_some', Option.some_bind]
    unfold findColumnIn
    apply find?_updateFirst_disjoint
    · intro c; simp [hf c]
    · intro c hc
      have h2 : c.id = cid := by simpa using hc
      rw [h2]
      exact beq_eq_false_iff_ne.mpr (fun he => hne he.symm)

/-- C2: when the whole chain resolves, a cross-column `moveProject`
splices the project out of the source column, into the destination at
`toIndex`, and appends exactly one `moved` activity (null old/new values,
description embedding both column titles) to that project's log — while a
same-column call reorders the column and appends no activity.
(`hnodup` rules out a second project with the same id already sitting in
the destination column; ids are globally unique.) -/
theorem C2_move_project (s : StoreState) (bid fromCid toCid pid : String) (toIndex : Nat)
    (aid : String) (now : Nat) (b : Board) (fc tc : Column) (p : Project)
    (hb : findBoard s bid = some b)
    (hf : findColumnIn b fromCid = some fc)
    (ht : findColumnIn b toCid = some tc)
    (hp : findProjectIn fc pid = some p) :
    (fromCid ≠ toCid → (∀ q ∈ tc.projects, (q.id == pid) = false) →
      (moveProject bid fromCid toCid pid toIndex aid now s).2 = true ∧
      findColumn (moveProject bid fromCid toCid pid toIndex aid now s).1 bid fromCid =
        some { fc with projects := removeFirst (fun q => q.id == pid) fc.projects } ∧
      findColumn (moveProject bid fromCid toCid pid toIndex aid now s).1 bid toCid =
        some { tc with
                projects := spliceInsert tc.projects toIndex
                  { p with activityLog := movedActivity fc.title tc.title aid now :: p.activityLog } }) ∧
    (fromCid = toCid →
      (moveProject bid fromCid toCid pid toIndex aid now s).2 = true ∧
      findColumn (moveProject bid fromCid toCid pid toIndex aid now s).1 bid fromCid =
        some { fc with
                projects := spliceInsert (removeFirst (fun q => q.id == pid) fc.projects) toIndex p }) := by
  have hpidp : (p.id == pid) = true := by simpa using List.find?_some hp
  constructor
  · intro hne hnodup
    have hne2 : (fromCid != toCid) = true := by simpa using hne
    simp only [moveProject, hb, hf, ht, hne2, if_true, hp]
    have hrwB := fun t => findBoard_updateBoardIn_self bid
      (fun b2 => { b2 with columns := updateFirst (fun c => c.id == toCid) (fun c => { c with projects := spliceInsert c.projects toIndex p }) (updateFirst (fun c => c.id == fromCid) (fun c => { c with projects := removeFirst (fun q => q.id == pid) c.projects }) b2.columns) })
      t (fun b2 => rfl)
    have hcolTo : findColumn
        (updateBoardIn bid
          (fun b2 => { b2 with columns := updateFirst (fun c => c.id == toCid) (fun c => { c with projects := spliceInsert c.projects toIndex p }) (updateFirst (fun c => c.id == fromCid) (fun c => { c with projects := removeFirst (fun q => q.id == pid) c.projects }) b2.columns) }) s)
        bid toCid =
        some { tc with projects := spliceInsert tc.projects toIndex p } := by
      unfold findColumn
      rw [hrwB, hb, Option.map_some', Option.some_bind]
      unfold findColumnIn
      dsimp only
      rw [find?_updateFirst_self (fun (c : Column) => c.id == toCid)
        (fun c => { c with projects := spliceInsert c.projects toIndex p }) _ (fun c => by simp)]
      rw [find?_updateFirst_disjoint (fun (c : Column) => c.id == fromCid)
        (fun (c : Column) => c.id == toCid)
        (fun c => { c with projects := removeFirst (fun q => q.id == pid) c.projects }) _
        (fun c => by simp)
        (fun c hc => by
          have h2 : c.id = fromCid := by simpa using hc
          show (c.id == toCid) = false
          rw [h2]
          exact beq_eq_false_iff_ne.mpr hne)]
      rw [show b.columns.find? (fun c => c.id == toCid) = some tc from ht, Option.map_some']
    have hcolFrom : findColumn
        (updateBoardIn bid
          (fun b2 => { b2 with columns := updateFirst (fun c => c.id == toCid) (fun c => { c with projects := spliceInsert c.projects toIndex p }) (updateFirst (fun c => c.id == fromCid) (fun c => { c with projects := removeFirst (fun q => q.id == pid) c.projects }) b2.columns) }) s)
        bid fromCid =
        some { fc with projects := removeFirst (fun q => q.id == pid) fc.projects } := by
      unfold findColumn
      rw [hrwB, hb, Option.map_some', Option.some_bind]
      unfold findColumnIn
      dsimp only
      rw [find?_updateFirst_disjoint (fun (c : Column) => c.id == toCid)
        (fun (c : Column) => c.id == fromCid)
        (fun c => { c with projects := spliceInsert c.projects toIndex p }) _
        (fun c => by simp)
        (fun c hc => by
          have h2 : c.id = toCid := by simpa using hc
          show (c.id == fromCid) = false
          rw [h2]
          exact beq_eq_false_iff_ne.mpr (fun he => hne he.symm))]
      rw [find?_updateFirst_self (fun (c : Column) => c.id == fromCid)
        (fun c => { c with projects := removeFirst (fun q => q.id == pid) c.projects }) _
        (fun c => by simp)]
      rw [show b.columns.find? (fun c => c.id == fromCid) = some fc from hf, Option.map_some']
    have hproj : findProject
        (updateBoardIn bid
          (fun b2 => { b2 with columns := updateFirst (fun c => c.id == toCid) (fun c => { c with projects := spliceInsert c.projects toIndex p }) (updateFirst (fun c => c.id == fromCid) (fun c => { c with projects := removeFirst (fun q => q.id == pid) c.projects }) b2.columns) }) s)
        bid toCid pid = some p := by
      unfold findProject
      rw [hcolTo, Option.some_bind]
      unfold findProjectIn
      exact find?_spliceInsert_hit _ _ _ _ hpidp hnodup
    rw [logActivity_eq_updateProjectIn _ _ _ _ _ _ _ _ _ _ _ hproj]
    refine ⟨by trivial, ?_, ?_⟩
    · have hrwNe := fun t => findColumn_updateColumnIn_ne bid toCid fromCid
        (fun c => { c with projects := updateFirst (fun q => q.id == pid) (fun q => { q with activityLog := { id := aid, action := "moved", description := movedDesc fc.title tc.title, timestamp := now, oldValue := none, newValue := none } :: q.activityLog }) c.projects })
        t (fun c => rfl) hne
      rw [updateProjectIn, hrwNe]
      exact hcolFrom
    · rw [updateProjectIn]
      have hrwC := fun t => findColumn_updateColumnIn_self bid toCid
        (fun c => { c with projects := updateFirst (fun q => q.id == pid) (fun q => { q with activityLog := { id := aid, action := "moved", description := movedDesc fc.title tc.title, timestamp := now, oldValue := none, newValue := none } :: q.activityLog }) c.projects })
        t (fun c => rfl)
      rw [hrwC, hcolTo, Option.map_some']
      congr 2
      rw [updateFirst_spliceInsert_hit (fun (q : Project) => q.id == pid)
        (fun q => { q with activityLog := { id := aid, action := "moved", description := movedDesc fc.title tc.title, timestamp := now, oldValue := none, newValue := none } :: q.activityLog })
        tc.projects toIndex p hpidp hnodup]
      simp [movedActivity]
  · intro heq
    subst heq
    have htc : fc = tc := by
      rw [hf] at ht
      exact Option.some.inj ht
    subst htc
    have hne2 : (fromCid != fromCid) = false := by simp
    simp only [moveProject, hb, hf, ht, hne2, Bool.false_eq_true, if_false, hp]
    refine ⟨by trivial, ?_⟩
    have hrwC := fun t => findColumn_updateColumnIn_self bid fromCid
      (fun c => { c with projects := spliceInsert (removeFirst (fun q => q.id == pid) c.projects) toIndex p })
      t (fun c => rfl)
    rw [hrwC]
    rw [show findColumn s bid fromCid = some fc from by
      unfold findColumn
      rw [hb, Option.some_bind]
      exact hf]
    rw [Option.map_some']

theorem C2_move_project_witness :
    (moveProject "b1" "c1" "c2" "p1" 0 "a7" 5 wState1).2 = true ∧
    findColumn (moveProject "b1" "c1" "c2" "p1" 0 "a7" 5 wState1).1 "b1" "c1" =
      some { wCol1 with projects := removeFirst (fun q => q.id == "p1") wCol1.projects } ∧
    findColumn (moveProject "b1" "c1" "c2" "p1" 0 "a7" 5 wState1).1 "b1" "c2" =
      some { wCol2 with
              projects := spliceInsert wCol2.projects 0
                { wProj1 with activityLog := movedActivity wCol1.title wCol2.title "a7" 5 :: wProj1.activityLog } } :=
  (C2_move_project wState1 "b1" "c1" "c2" "p1" 0 "a7" 5 wBoard1 wCol1 wCol2 wProj1
    rfl rfl rfl rfl).1 (by decide) (by decide)

/-- C9 counterexample to the claim as stated: with a fully resolving id
chain, `updateLink` called with the link's current title and url logs
zero activities (only the timestamp is refreshed), where the claim
demands exactly one activity per call. -/
theorem C9_counterexample :
    chainResolves (Op.updateLink "b1" "c1" "p1" "l1" "http://a" "T1" "a9" 7) wState1 = true ∧
    findProject (updateLink "b1" "c1" "p1" "l1" "http://a" "T1" "a9" 7 wState1).1 "b1" "c1" "p1" =
      some { wProj1 with links := [{ wLink1 with timestamp := 7 }] } := by
  refine ⟨by decide, ?_⟩
  decide

/-- C9 (amended): every link/comment operation whose id chain resolves
appends exactly one activity with its action-specific payload — except
`updateLink` with both title and url unchanged, which appends none —
update operations refresh the entity's timestamp to now, and delete
operations record the deleted entity's content as the activity's
`oldValue` while removing the entity. -/
theorem C9_link_comment_ops (s : StoreState) (bid cid pid lid cmid url title text nid aid : String)
    (now : Nat) (proj : Project) (link : Link) (comment : Comment)
    (hp : findProject s bid cid pid = some proj)
    (hl : proj.links.find? (fun l => l.id == lid) = some link)
    (hc : proj.comments.find? (fun c => c.id == cmid) = some comment) :
    (findProject (addLink bid cid pid url title nid aid now s).1 bid cid pid =
      some { proj with
              links := proj.links ++ [{ id := nid, url := url, title := title, timestamp := now }],
              activityLog :=
                { id := aid, action := "link_added", description := "🔗 Link added", timestamp := now,
                  oldValue := none,
                  newValue := some (ActVal.obj [("title", title), ("url", url)]) } :: proj.activityLog }) ∧
    (findProject (updateLink bid cid pid lid url title aid now s).1 bid cid pid =
      some { proj with
              links := updateFirst (fun l => l.id == lid)
                (fun l => { l with url := url, title := title, timestamp := now }) proj.links,
              activityLog := updateLinkActs link url title aid now ++ proj.activityLog }) ∧
    (findProject (deleteLink bid cid pid lid aid now s).1 bid cid pid =
      some { proj with
              links := removeFirst (fun l => l.id == lid) proj.links,
              activityLog :=
                { id := aid, action := "link_deleted", description := "🗑️ Link deleted", timestamp := now,
                  oldValue := some (ActVal.obj [("title", link.title), ("url", link.url)]),
                  newValue := none } :: proj.activityLog }) ∧
    (findProject (addComment bid cid pid text nid aid now s).1 bid cid pid =
      some { proj with
              comments := proj.comments ++ [{ id := nid, text := text, timestamp := now }],
              activityLog :=
                { id := aid, action := "comment_added", description := "💬 Comment added", timestamp := now,
                  oldValue := none, newValue := some (ActVal.str text) } :: proj.activityLog }) ∧
    (findProject (updateComment bid cid pid cmid text aid now s).1 bid cid pid =
      some { proj with
              comments := updateFirst (fun c => c.id == cmid)
                (fun c => { c with text := text, timestamp := now }) proj.comments,
              activityLog :=
                { id := aid, action := "comment_updated", description := "✏️ Comment edited", timestamp := now,
                  oldValue := some (ActVal.str comment.text),
                  newValue := some (ActVal.str text) } :: proj.activityLog }) ∧
    (findProject (deleteComment bid cid pid cmid aid now s).1 bid cid pid =
      some { proj with
              comments := removeFirst (fun c => c.id == cmid) proj.comments,
              activityLog :=
                { id := aid, action := "comment_deleted", description := "🗑️ Comment deleted", timestamp := now,
                  oldValue := some (ActVal.str comment.text), newValue := none } :: proj.activityLog }) := by
  refine ⟨?_, ?_, ?_, ?_, ?_, ?_⟩
  · simp only [addLink, hp]
    have hrw := fun t => findProject_updateProjectIn_self bid cid pid
      (fun p => { p with links := p.links ++ [{ id := nid, url := url, title := title, timestamp := now }] })
      t (fun p => rfl)
    have h1 := hrw s
    rw [hp, Option.map_some'] at h1
    rw [findProject_logActivity _ _ _ _ _ _ _ _ _ _ _ h1]
  · simp only [updateLink, hp, hl]
    have hrw := fun t => findProject_updateProjectIn_self bid cid pid
      (fun p => { p with links := updateFirst (fun l => l.id == lid) (fun l => { l with url := url, title := title, timestamp := now }) p.links })
      t (fun p => rfl)
    have h1 := hrw s
    rw [hp, Option.map_some'] at h1
    by_cases ht1 : (link.title != title) = true
    · by_cases hu1 : (link.url != url) = true
      · have hb1 : (link.title != title && link.url != url) = true := by rw [ht1, hu1]; rfl
        rw [if_pos hb1]
        rw [findProject_logActivity _ _ _ _ _ _ _ _ _ _ _ h1]
        simp [updateLinkActs, ht1, hu1]
      · have hu2 : (link.url != url) = false := by simpa using hu1
        have hb1 : (link.title != title && link.url != url) = false := by rw [hu2]; simp
        rw [if_neg (by simp [hb1]), if_pos ht1]
        rw [findProject_logActivity _ _ _ _ _ _ _ _ _ _ _ h1]
        simp [updateLinkActs, ht1, hu2]
    · have ht2 : (link.title != title) = false := by simpa using ht1
      by_cases hu1 : (link.url != url) = true
      · have hb1 : (link.title != title && link.url != url) = false := by rw [ht2]; simp
        rw [if_neg (by simp [hb1]), if_neg (by simp [ht2]), if_pos hu1]
        rw [findProject_logActivity _ _ _ _ _ _ _ _ _ _ _ h1]
        simp [updateLinkActs, ht2, hu1]
      · have hu2 : (link.url != url) = false := by simpa using hu1
        have hb1 : (link.title != title && link.url != url) = false := by rw [ht2]; simp
        rw [if_neg (by simp [hb1]), if_neg (by simp [ht2]), if_neg (by simp [hu2])]
        rw [h1]
        simp [updateLinkActs, ht2, hu2]
  · simp only [deleteLink, hp, hl]
    have h1 := findProject_logActivity bid cid pid "link_deleted" "🗑️ Link deleted"
      (some (ActVal.obj [("title", link.title), ("url", link.url)])) none aid now s proj hp
    have hrw := fun t => findProject_updateProjectIn_self bid cid pid
      (fun p => { p with links := removeFirst (fun l => l.id == lid) p.links })
      t (fun p => rfl)
    rw [hrw, h1, Option.map_some']
  · simp only [addComment, hp]
    have hrw := fun t => findProject_updateProjectIn_self bid cid pid
      (fun p => { p with comments := p.comments ++ [{ id := nid, text := text, timestamp := now }] })
      t (fun p => rfl)
    have h1 := hrw s
    rw [hp, Option.map_some'] at h1
    rw [findProject_logActivity _ _ _ _ _ _ _ _ _ _ _ h1]
  · simp only [updateComment, hp, hc]
    have hrw := fun t => findProject_updateProjectIn_self bid cid pid
      (fun p => { p with comments := updateFirst (fun c => c.id == cmid) (fun c => { c with text := text, timestamp := now }) p.comments })
      t (fun p => rfl)
    have h1 := hrw s
    rw [hp, Option.map_some'] at h1
    rw [findProject_logActivity _ _ _ _ _ _ _ _ _ _ _ h1]
  · simp only [deleteComment, hp, hc]
    have h1 := findProject_logActivity bid cid pid "comment_deleted" "🗑️ Comment deleted"
      (some (ActVal.str comment.text)) none aid now s proj hp
    have hrw := fun t => findProject_updateProjectIn_self bid cid pid
      (fun p => { p with comments := removeFirst (fun c => c.id == cmid) p.comments })
      t (fun p => rfl)
    rw [hrw, h1, Option.map_some']

theorem C9_link_comment_ops_witness :
    (findProject (addLink "b1" "c1" "p1" "u2" "T2" "n1" "x1" 3 wState1).1 "b1" "c1" "p1" =
      some { wProj1 with
              links := wProj1.links ++ [{ id := "n1", url := "u2", title := "T2", timestamp := 3 }],
              activityLog :=
                { id := "x1", action := "link_added", description := "🔗 Link added", timestamp := 3,
                  oldValue := none,
                  newValue := some (ActVal.obj [("title", "T2"), ("url", "u2")]) } :: wProj1.activityLog }) ∧
    (findProject (updateLink "b1" "c1" "p1" "l1" "u2" "T2" "x1" 3 wState1).1 "b1" "c1" "p1" =
      some { wProj1 with
              links := updateFirst (fun l => l.id == "l1")
                (fun l => { l with url := "u2", title := "T2", timestamp := 3 }) wProj1.links,
              activityLog := updateLinkActs wLink1 "u2" "T2" "x1" 3 ++ wProj1.activityLog }) ∧
    (findProject (deleteLink "b1" "c1" "p1" "l1" "x1" 3 wState1).1 "b1" "c1" "p1" =
      some { wProj1 with
              links := removeFirst (fun l => l.id == "l1") wProj1.links,
              activityLog :=
                { id := "x1", action := "link_deleted", description := "🗑️ Link deleted", timestamp := 3,
                  oldValue := some (ActVal.obj [("title", wLink1.title), ("url", wLink1.url)]),
                  newValue := none } :: wProj1.activityLog }) ∧
    (findProject (addComment "b1" "c1" "p1" "t2" "n1" "x1" 3 wState1).1 "b1" "c1" "p1" =
      some { wProj1 with
              comments := wProj1.comments ++ [{ id := "n1", text := "t2", timestamp := 3 }],
              activityLog :=
                { id := "x1", action := "comment_added", description := "💬 Comment added", timestamp := 3,
                  oldValue := none, newValue := some (ActVal.str "t2") } :: wProj1.activityLog }) ∧
    (findProject (updateComment "b1" "c1" "p1" "m1" "t2" "x1" 3 wState1).1 "b1" "c1" "p1" =
      some { wProj1 with
              comments := updateFirst (fun c => c.id == "m1")
                (fun c => { c with text := "t2", timestamp := 3 }) wProj1.comments,
              activityLog :=
                { id := "x1", action := "comment_updated", description := "✏️ Comment edited", timestamp := 3,
                  oldValue := some (ActVal.str wComment1.text),
                  newValue := some (ActVal.str "t2") } :: wProj1.activityLog }) ∧
    (findProject (deleteComment "b1" "c1" "p1" "m1" "x1" 3 wState1).1 "b1" "c1" "p1" =
      some { wProj1 with
              comments := removeFirst (fun c => c.id == "m1") wProj1.comments,
              activityLog :=
                { id := "x1", action := "comment_deleted", description := "🗑️ Comment deleted", timestamp := 3,
                  oldValue := some (ActVal.str wComment1.text), newValue := none } :: wProj1.activityLog }) :=
  C9_link_comment_ops wState1 "b1" "c1" "p1" "l1" "m1" "u2" "T2" "t2" "n1" "x1" 3
    wProj1 wLink1 wComment1 rfl rfl rfl
